import Mathlib

/-
Verification of the container-daemon core: the in-memory container registry
(container store, name registrar, truncated-ID index), the boot-time restore
procedure of daemon/daemon.go, and the network/link attachment operations of
daemon/container_network_operations_unix.go.

Shallow embedding conventions:
  * Go maps become association lists keyed by `String`.
  * Go `nil` slices and pointers become `Option`.
  * Side effects on the outside world (disk reads, the layer store, the
    execution backend, the legacy sqlite link database) become an explicit
    environment of oracles (`RestoreEnv`, `NetEnv`), and observable actions
    are recorded in an event trace.
  * The concurrent per-container phases of restore are joined by wait-group
    barriers in the source; between barriers each container is processed by
    an independent worker whose effects touch only that container (plus two
    idempotent accumulator writes), so the phases are embedded as maps/folds
    over the container list in scan order.  The restart phase, whose channel
    protocol genuinely matters, additionally gets a faithful small-step
    model (`RStep`) of the notifier channels and the per-worker
    `time.After(5s)` timer channel.

Functions of this repository that are not under src/ (only their tests or
callers are) carry a doc comment starting with "Modelled from the spec:" and
follow the specification text.
-/

deriving instance DecidableEq for Except

namespace DockerDaemon

/-! ## String and association-list helpers -/

/-- Does the string p occur as a prefix of s?  (Char-list based so that the
kernel can evaluate it; String.isPrefixOf itself is defined through
byte-position recursion that does not reduce definitionally.) -/
def strIsPfxOf (p s : String) : Bool := p.toList.isPrefixOf s.toList

/-- Does the string start with a slash? -/
def hasSlashHead (name : String) : Bool :=
  match name.toList with
  | '/' :: _ => true
  | _ => false

/-- Lookup in an association list keyed by strings (a Go map). -/
def alookup {α : Type} (l : List (String × α)) (k : String) : Option α :=
  match l with
  | [] => none
  | (k1, v) :: rest => if k1 = k then some v else alookup rest k

/-- Insert-or-replace in an association list (Go `m[k] = v`). -/
def ainsert {α : Type} (l : List (String × α)) (k : String) (v : α) :
    List (String × α) :=
  match l with
  | [] => [(k, v)]
  | (k1, v1) :: rest =>
    if k1 = k then (k, v) :: rest else (k1, v1) :: ainsert rest k v

/-- Deletion from an association list (Go `delete(m, k)`). -/
def aerase {α : Type} (l : List (String × α)) (k : String) : List (String × α) :=
  l.filter (fun p => p.1 != k)

/-! ## Data model -/

/-- Restart policy of a container (host-config `RestartPolicy`). -/
inductive RestartPolicy where
  | noRestart
  | always
  | unlessStopped
  | onFailure (maximumRetryCount : Nat)
deriving Repr, DecidableEq

/-- Per-network endpoint settings (`networktypes.EndpointSettings`); only the
fields the verified operations consult are carried. -/
structure EndpointSettings where
  ipAddress : String := ""
deriving Repr, DecidableEq

/-- Host configuration.  `links = none` embeds a Go `nil` Links slice (the
legacy-format sentinel of daemon.go:198-201), `links = some l` an explicit
(possibly empty) list. -/
structure HostConfig where
  links : Option (List String) := some []
  networkMode : String := "bridge"
  restartPolicy : RestartPolicy := .noRestart
deriving Repr, DecidableEq

/-- A container entity: identity, persisted config fragments and the state
fields consulted by restore and the network operations (container.Container
with its embedded State). -/
structure Container where
  id : String
  name : String := ""
  driver : String := ""
  running : Bool := false
  paused : Bool := false
  removalInProgress : Bool := false
  dead : Bool := false
  exitCode : Int := 0
  restartCount : Nat := 0
  hasBeenManuallyStopped : Bool := false
  hostConfig : Option HostConfig := some {}
  networks : List (String × EndpointSettings) := []
deriving Repr, DecidableEq

/-- The name of the default bridge network,
`runconfig.DefaultDaemonNetworkMode().NetworkName()`: a process-wide
constant. -/
def defaultNetworkName : String := "bridge"

/-! ## The three indices

The container store, the name registrar and the truncated-ID index are
referenced from daemon.go but their packages are not under src/; they are
modelled from the spec (sections 4.1-4.3). -/

/-- Modelled from the spec: the Container Store (pkg container.Store is not
under src/) - a mapping from container ID to container with add/get/remove. -/
abbrev Store := List (String × Container)

def storeGet (s : Store) (id : String) : Option Container := alookup s id

def storeAdd (s : Store) (id : String) (c : Container) : Store := ainsert s id c

def storeHas (s : Store) (id : String) : Bool := (storeGet s id).isSome

/-- Modelled from the spec: the Name Registrar (pkg registrar is not under
src/) - a mapping from reserved name to container ID. -/
abbrev Registrar := List (String × String)

/-- The distinguished name-reserved condition (registrar.ErrNameReserved). -/
inductive RegistrarErr where
  | nameReserved
deriving Repr, DecidableEq

/-- Modelled from the spec: reservation fails with the distinguished
name-reserved error when the name is already taken, and leaves the
registrar unchanged in that case; otherwise it records the binding. -/
def registrarReserve (r : Registrar) (name id : String) :
    Except RegistrarErr Registrar :=
  if (alookup r name).isSome then .error .nameReserved
  else .ok ((name, id) :: r)

def registrarGet (r : Registrar) (name : String) : Option String := alookup r name

/-- Modelled from the spec: releasing a name drops its reservation. -/
def registrarRelease (r : Registrar) (name : String) : Registrar := aerase r name

/-- Does some reserved name map to this ID? -/
def registrarOwns (r : Registrar) (id : String) : Bool :=
  r.any (fun p => p.2 == id)

/-- Modelled from the spec: the ID Index (pkg truncindex is not under src/) -
the set of indexed full IDs, supporting unambiguous-prefix lookup. -/
abbrev TruncIndex := List String

inductive TruncIndexErr where
  | notFound
  | ambiguous
deriving Repr, DecidableEq

/-- Modelled from the spec: adding a full ID to the index (duplicates are
not re-added). -/
def truncIndexAdd (idx : TruncIndex) (id : String) : TruncIndex :=
  if idx.contains id then idx else id :: idx

/-- Modelled from the spec: deleting a full ID from the index. -/
def truncIndexDelete (idx : TruncIndex) (id : String) : TruncIndex :=
  idx.filter (fun j => j != id)

/-- Modelled from the spec: get(pfx) fails with NotFound if no indexed ID
starts with pfx and with Ambiguous if more than one does; otherwise it
returns the unique match. -/
def truncIndexGet (idx : TruncIndex) (pfx : String) : Except TruncIndexErr String :=
  match idx.filter (fun id => strIsPfxOf pfx id) with
  | [] => .error .notFound
  | [id] => .ok id
  | _ :: _ :: _ => .error .ambiguous

def indexHas (idx : TruncIndex) (id : String) : Bool := idx.contains id

/-- The state of the daemon facade that the lookup and registration
operations touch: the three indices (Daemon.containers, Daemon.nameIndex,
Daemon.idIndex). -/
structure DaemonState where
  containers : Store := []
  nameIndex : Registrar := []
  idIndex : TruncIndex := []
deriving Repr, DecidableEq

def emptyDaemon : DaemonState := {}

/-! ## Name handling (daemon/names.go, under src/) -/

/-- First character class of utils.RestrictedNamePattern: a-z A-Z 0-9. -/
def isNameHeadChar (ch : Char) : Bool := ch.isAlphanum

/-- Tail character class of utils.RestrictedNamePattern. -/
def isNameTailChar (ch : Char) : Bool :=
  ch.isAlphanum || ch == '_' || ch == '.' || ch == '-'

/-- validContainerNamePattern: an optional leading slash, then one head
character and at least one tail character (the pattern constant lives in the
utils package outside src/; its accepted/rejected examples are pinned by
daemon/names_test.go, which the decidable examples below reproduce). -/
def validContainerName (name : String) : Bool :=
  let s := match name.toList with
    | '/' :: rest => rest
    | l => l
  match s with
  | [] => false
  | ch :: rest => isNameHeadChar ch && !rest.isEmpty && rest.all isNameTailChar

/-- Slash-normalisation applied by reserveName and GetByName. -/
def fullName (name : String) : String :=
  if hasSlashHead name then name else "/" ++ name

/-- The errors reserveName can produce: an invalid name, and the Conflict
error, which carries the name and the ID of the existing owner - distinct
from every other reservation error. -/
inductive ReserveNameErr where
  | invalidName (name : String)
  | conflict (name ownerID : String)
  | lookupFailed
deriving Repr, DecidableEq

/-- The caller-visible outcome of reserveName: the result plus the (possibly
updated) daemon state, which is unchanged on every error path. -/
structure ReserveOut where
  res : Except ReserveNameErr String
  state : DaemonState
deriving Repr, DecidableEq

/-- reserveName (daemon/names.go): validate the name, slash-prefix it,
reserve it in the name registrar; on the distinguished name-reserved error,
look up the existing owner and return the Conflict error naming it. -/
def reserveName (d : DaemonState) (id name : String) : ReserveOut :=
  if !validContainerName name then ⟨.error (.invalidName name), d⟩
  else
    let n := fullName name
    match registrarReserve d.nameIndex n id with
    | .ok r => ⟨.ok n, { d with nameIndex := r }⟩
    | .error .nameReserved =>
      match registrarGet d.nameIndex n with
      | some owner => ⟨.error (.conflict n owner), d⟩
      | none => ⟨.error .lookupFailed, d⟩

/-! ## Container lookup -/

inductive ContainerLookupErr where
  | notFound
  | ambiguous
deriving Repr, DecidableEq

/-- Modelled from the spec: GetByName resolves an exact, slash-normalised
name through the name registrar and then fetches the owner from the store
(the function body is not under src/). -/
def GetByName (d : DaemonState) (name : String) : Option Container :=
  (registrarGet d.nameIndex (fullName name)).bind (storeGet d.containers)

/-- Modelled from the spec (section 4.3): GetContainer(ref) tries, in order,
(1) exact full-ID match in the store, (2) exact name match through the
registrar, (3) unambiguous ID-prefix match in the ID index (the function
body is not under src/; the precedence is pinned by TestGetContainer, which
the decidable examples below reproduce). -/
def GetContainer (d : DaemonState) (ref : String) :
    Except ContainerLookupErr Container :=
  match storeGet d.containers ref with
  | some c => .ok c
  | none =>
    match GetByName d ref with
    | some c => .ok c
    | none =>
      match truncIndexGet d.idIndex ref with
      | .ok id =>
        match storeGet d.containers id with
        | some c => .ok c
        | none => .error .notFound
      | .error .ambiguous => .error .ambiguous
      | .error .notFound => .error .notFound

/-! ## Registration (restore, daemon.go:147-156) -/

/-- Modelled from the spec (restore step 5): registerName refuses a
container that is already loaded and otherwise reserves its persisted name
for its ID; `none` is the logged-and-skipped failure (the function body is
not under src/). -/
def registerName (d : DaemonState) (c : Container) : Option DaemonState :=
  if storeHas d.containers c.id then none
  else
    match registrarReserve d.nameIndex c.name c.id with
    | .ok r => some { d with nameIndex := r }
    | .error _ => none

/-- Modelled from the spec (restore step 5): Register adds the container to
the container store and its full ID to the ID index (the function body is
not under src/). -/
def Register (d : DaemonState) (c : Container) : DaemonState :=
  { d with
    containers := storeAdd d.containers c.id c
    idIndex := truncIndexAdd d.idIndex c.id }

/-- One iteration of the registration loop of restore (daemon.go:147-156):
a registerName failure is logged and the container skipped; otherwise the
container is registered. -/
def registerContainer (d : DaemonState) (c : Container) : DaemonState :=
  match registerName d c with
  | none => d
  | some d1 => Register d1 c

def registerAll (d : DaemonState) (cs : List Container) : DaemonState :=
  cs.foldl registerContainer d

/-- Modelled from the spec (data-model lifecycle): removal de-registers the
container from all three indices. -/
def unregisterContainer (d : DaemonState) (id : String) : DaemonState :=
  { containers := d.containers.filter (fun p => p.1 != id)
    nameIndex := d.nameIndex.filter (fun p => p.2 != id)
    idIndex := truncIndexDelete d.idIndex id }

/-- The consistency invariant of the three indices: an ID is in the store
iff some name maps to it in the registrar iff it is in the ID index. -/
def Consistent (d : DaemonState) : Prop :=
  ∀ id : String,
    storeHas d.containers id = registrarOwns d.nameIndex id ∧
    storeHas d.containers id = indexHas d.idIndex id

/-! ## The restore engine (daemon.go:103-294)

The concurrent per-container phases are embedded as folds in scan order;
each worker of the source touches only its own container between the
wait-group barriers, so scan order is one admissible interleaving and the
per-container results are interleaving-independent. -/

/-- Outcome of one select on a restart-wait channel pair. -/
inductive WaitOutcome where
  | completed
  | timedOut
deriving Repr, DecidableEq

/-- The fixed restart-wait timeout: `time.After(5 * time.Second)`
(daemon.go:241). -/
def restartWaitTimeoutSeconds : Nat := 5

/-- Observable actions of restore, in order of occurrence. -/
inductive RestoreEvent where
  | toDisk (id : String)
  | openLinkDB
  | migrateLinks (id : String)
  | registerLinksFor (id : String)
  | waitChild (parent child : String) (outcome : WaitOutcome)
  | startAttempt (id : String)
  | prepareMounts (id : String)
deriving Repr, DecidableEq

/-- Top-level restore failures; every other failure is logged and skipped. -/
inductive RestoreErr where
  | readDirFailed
  | linkDBOpenFailed
  | migrationFailed (id : String)
deriving Repr, DecidableEq

/-- The environment restore runs against: the on-disk repository, the layer
store, the execution backend, the legacy link database and the link index,
plus scheduling oracles for the concurrent restart phase. -/
structure RestoreEnv where
  repositoryDir : Option (List String)
  load : String → Option Container
  currentDriver : String
  getRWLayerOk : String → Bool
  reinitRWLayerOk : String → Bool
  containerdRestoreOk : String → Bool
  autoRestart : Bool
  linkDBOpenOk : Bool
  migrateLegacySqliteLinksOk : String → Bool
  children : String → List String
  waitOutcome : String → String → WaitOutcome
  startBackendOk : String → Bool

/-- The storage-driver compatibility filter of daemon.go:130: accept when
the recorded driver equals the active one, or when no driver is recorded
and the active driver is aufs (the historical default). -/
def driverCompatible (containerDriver currentDriver : String) : Bool :=
  (containerDriver == "" && currentDriver == "aufs") || containerDriver == currentDriver

/-- Insert into the scan accumulator keyed by container ID
(`containers[container.ID] = container`, replace semantics). -/
def cinsert (l : List Container) (c : Container) : List Container :=
  match l with
  | [] => [c]
  | c1 :: rest => if c1.id = c.id then c :: rest else c1 :: cinsert rest c

def cfind (l : List Container) (id : String) : Option Container :=
  l.find? (fun c => c.id == id)

/-- One iteration of the scan loop (daemon.go:118-143): deserialize, filter
by storage driver, acquire the writable layer; every failure skips just
this candidate. -/
def loadStep (env : RestoreEnv) (acc : List Container) (dirName : String) :
    List Container :=
  match env.load dirName with
  | none => acc
  | some c =>
    if driverCompatible c.driver env.currentDriver then
      if env.getRWLayerOk c.id then cinsert acc c else acc
    else acc

/-- The scan phase: the surviving containers, in scan order. -/
def loadAndFilter (env : RestoreEnv) (dirIds : List String) : List Container :=
  dirIds.foldl (loadStep env) []

/-- The restart policy recorded in the host configuration of the container. -/
def containerRestartPolicy (c : Container) : RestartPolicy :=
  match c.hostConfig with
  | some hc => hc.restartPolicy
  | none => .noRestart

/-- Modelled from the spec (section 8.7): ShouldRestart (container package,
not under src/) evaluates the restart policy of the container itself against its
last exit state. -/
def shouldRestart (c : Container) : Bool :=
  match containerRestartPolicy c with
  | .noRestart => false
  | .always => true
  | .unlessStopped => !c.hasBeenManuallyStopped
  | .onFailure m => !(c.exitCode == 0) && decide (c.restartCount < m)

/-- The legacy-format sentinel of daemon.go:199:
`c.HostConfig != nil && c.HostConfig.Links == nil`. -/
def nilLinksSentinel (c : Container) : Bool :=
  match c.hostConfig with
  | some hc => hc.links.isNone
  | none => false

/-- Result of the per-container restoration worker (daemon.go:161-202). -/
structure StepOut where
  c : Container
  selected : Bool
  sawNilLinks : Bool
  persisted : Bool
deriving Repr, DecidableEq

/-- The per-container restoration worker (daemon.go:161-202): a running or
paused container whose layer reinit or containerd restore fails returns
early (no restart-selection, no flag reset, no sentinel detection for it);
otherwise the worker records restart eligibility, resets a pending
RemovalInProgress to Dead and persists that, and reports the legacy-links
sentinel. -/
def restoreContainerStep (env : RestoreEnv) (c : Container) : StepOut :=
  if (c.running || c.paused)
      && !(env.reinitRWLayerOk c.id && env.containerdRestoreOk c.id) then
    { c := c, selected := false, sawNilLinks := false, persisted := false }
  else
    let selected := env.autoRestart && !c.running && !c.paused && shouldRestart c
    let reset := c.removalInProgress
    let c1 := if reset then { c with removalInProgress := false, dead := true } else c
    { c := c1, selected := selected, sawNilLinks := nilLinksSentinel c, persisted := reset }

/-- The link-registration loop (daemon.go:218-227): when migration is
pending, each container is migrated right before its own link registration,
and a migration failure aborts restore; registerLinks failures are only
logged. -/
def linksLoop (env : RestoreEnv) (migrate : Bool) :
    List Container → Except RestoreErr (List RestoreEvent)
  | [] => .ok []
  | c :: rest =>
    if migrate && !env.migrateLegacySqliteLinksOk c.id then
      .error (.migrationFailed c.id)
    else
      match linksLoop env migrate rest with
      | .error e => .error e
      | .ok tr =>
        .ok ((if migrate then [RestoreEvent.migrateLinks c.id] else [])
              ++ RestoreEvent.registerLinksFor c.id :: tr)

/-- The trace the link-registration loop produces when no migration fails:
per container, the migration (when pending) immediately followed by that
link registration of the same container. -/
def linksTraceOf (migrate : Bool) (cs : List Container) : List RestoreEvent :=
  cs.foldr
    (fun c tr =>
      (if migrate then [RestoreEvent.migrateLinks c.id] else [])
        ++ RestoreEvent.registerLinksFor c.id :: tr) []

inductive StartErr where
  | notStartableRemoval
  | backendFailed
deriving Repr, DecidableEq

/-- Modelled from the spec (section 4.6): Start is a no-op on a running
container and is refused for a container that is marked RemovalInProgress
or Dead; otherwise it invokes the execution backend and sets Running
(containerStart is not under src/). -/
def containerStart (env : RestoreEnv) (c : Container) : Except StartErr Container :=
  if c.running then .ok c
  else if c.removalInProgress || c.dead then .error .notStartableRemoval
  else if env.startBackendOk c.id then .ok { c with running := true }
  else .error .backendFailed

/-- The trace of one restart worker (daemon.go:233-257): one bounded wait
per link child that is also scheduled for restart, then the start attempt -
unconditionally, whatever the wait outcomes were. -/
def restartWorkerTrace (restartIds : List String) (oracle : String → WaitOutcome)
    (c : Container) (childIds : List String) : List RestoreEvent :=
  (childIds.filterMap fun ch =>
    if restartIds.contains ch then some (.waitChild c.id ch (oracle ch)) else none)
  ++ [.startAttempt c.id]

/-- Store entries are shared pointers in the source; reflect the final
container states into the store. -/
def finalizeStore (d : DaemonState) (final : List Container) : DaemonState :=
  { d with containers := d.containers.map fun p =>
      match cfind final p.1 with
      | some c => (p.1, c)
      | none => p }

structure RestoreResult where
  daemonState : DaemonState
  containers : List Container
  restartIDs : List String
  trace : List RestoreEvent
deriving Repr, DecidableEq

/-- The per-container worker results, in scan order. -/
def restoreOuts (env : RestoreEnv) (dirIds : List String) : List StepOut :=
  (loadAndFilter env dirIds).map (restoreContainerStep env)

/-- The accumulated legacy-migration flag (daemon.go:145,198-201). -/
def restoreMigrateFlag (env : RestoreEnv) (dirIds : List String) : Bool :=
  (restoreOuts env dirIds).any (fun o => o.sawNilLinks)

/-- The containers after the per-container workers (flag resets applied). -/
def restoreCs1 (env : RestoreEnv) (dirIds : List String) : List Container :=
  (restoreOuts env dirIds).map (fun o => o.c)

/-- The IDs selected for automatic restart (the restartContainers map). -/
def restoreRestartIds (env : RestoreEnv) (dirIds : List String) : List String :=
  ((restoreOuts env dirIds).filter (fun o => o.selected)).map (fun o => o.c.id)

/-- The ToDisk writes of the RemovalInProgress resets. -/
def restoreResetTrace (env : RestoreEnv) (dirIds : List String) : List RestoreEvent :=
  ((restoreOuts env dirIds).filter (fun o => o.persisted)).map
    (fun o => RestoreEvent.toDisk o.c.id)

/-- The container states after the restart phase: a start is attempted
exactly for the selected containers, and a failed start leaves the
container as it was (the error is only logged, daemon.go:253-255). -/
def restoreFinalContainers (env : RestoreEnv) (dirIds : List String) : List Container :=
  (restoreCs1 env dirIds).map fun c =>
    if (restoreRestartIds env dirIds).contains c.id then
      match containerStart env c with
      | .ok c2 => c2
      | .error _ => c
    else c

/-- The concatenated traces of the restart workers (one admissible
interleaving: worker segments in scan order, each segment in program
order). -/
def restoreRestartTrace (env : RestoreEnv) (dirIds : List String) : List RestoreEvent :=
  ((restoreCs1 env dirIds).filter
      (fun c => (restoreRestartIds env dirIds).contains c.id)).foldr
    (fun c acc =>
      restartWorkerTrace (restoreRestartIds env dirIds) (env.waitOutcome c.id) c
          (env.children c.id) ++ acc) []

/-- The successful restore outcome, given the link-phase trace. -/
def restoreSuccess (env : RestoreEnv) (dirIds : List String)
    (linkTrace : List RestoreEvent) : RestoreResult :=
  { daemonState :=
      finalizeStore (registerAll emptyDaemon (loadAndFilter env dirIds))
        (restoreFinalContainers env dirIds)
    containers := restoreFinalContainers env dirIds
    restartIDs := restoreRestartIds env dirIds
    trace := restoreResetTrace env dirIds
      ++ (if restoreMigrateFlag env dirIds then [RestoreEvent.openLinkDB] else [])
      ++ linkTrace
      ++ restoreRestartTrace env dirIds
      ++ ((restoreCs1 env dirIds).filter
            (fun c => !(restoreRestartIds env dirIds).contains c.id)).map
          (fun c => RestoreEvent.prepareMounts c.id) }

/-- restore (daemon.go:103-294): scan the repository, register names and
containers, run the per-container restoration workers, open the legacy link
database once if any worker saw the nil-Links sentinel, migrate and
register link edges, start the restart-eligible containers (waiting for
their link children first), and prepare mount points for the rest.  Only
the repository read, the link-database open and a migration failure abort
restore. -/
def restore (env : RestoreEnv) : Except RestoreErr RestoreResult :=
  match env.repositoryDir with
  | none => .error .readDirFailed
  | some dirIds =>
    if restoreMigrateFlag env dirIds && !env.linkDBOpenOk then .error .linkDBOpenFailed
    else
      match linksLoop env (restoreMigrateFlag env dirIds) (restoreCs1 env dirIds) with
      | .error e => .error e
      | .ok linkTrace => .ok (restoreSuccess env dirIds linkTrace)

/-- The successful-restore projection used in concrete checks. -/
def restoreOk? (x : Except RestoreErr RestoreResult) : Option RestoreResult :=
  match x with
  | .ok r => some r
  | .error _ => none

/-! ## Small-step model of the restart-phase channels (daemon.go:229-260)

Each restart worker owns one notify channel (closed after its start
attempt) and one `time.After(5s)` timer channel created once before its
wait loop.  `time.After` delivers a single value; once a select has
consumed it, later selects on the same drained channel can only be released
by the awaited child closing its notify channel. -/

inductive WorkerPhase where
  | waiting (remaining : List String)
  | done
deriving Repr, DecidableEq

structure WorkerState where
  phase : WorkerPhase
  timerConsumed : Bool
  chClosed : Bool
deriving Repr, DecidableEq

/-- The restart workers, keyed by container ID; the waiting lists are the
link children that are also scheduled for restart (daemon.go:242-243). -/
abbrev RestartSys := List (String × WorkerState)

def getWorker (s : RestartSys) (id : String) : Option WorkerState := alookup s id

def setWorker (s : RestartSys) (id : String) (w : WorkerState) : RestartSys :=
  ainsert s id w

/-- One scheduler step of the restart phase: a select resolves through the
closed notify channel of the child, or through the timer of this worker (available at
most once), or a worker whose waits are exhausted attempts its start and
closes its notify channel. -/
inductive RStep : RestartSys → RestartSys → Prop where
  | childDone (s : RestartSys) (id ch : String) (rest : List String)
      (w wch : WorkerState) :
      getWorker s id = some w → w.phase = .waiting (ch :: rest) →
      getWorker s ch = some wch → wch.chClosed = true →
      RStep s (setWorker s id { w with phase := .waiting rest })
  | timerFires (s : RestartSys) (id ch : String) (rest : List String)
      (w : WorkerState) :
      getWorker s id = some w → w.phase = .waiting (ch :: rest) →
      w.timerConsumed = false →
      RStep s (setWorker s id { w with phase := .waiting rest, timerConsumed := true })
  | startAndClose (s : RestartSys) (id : String) (w : WorkerState) :
      getWorker s id = some w → w.phase = .waiting [] →
      RStep s (setWorker s id { w with phase := .done, chClosed := true })

/-- Reflexive-transitive closure of the scheduler steps. -/
def RSteps : RestartSys → RestartSys → Prop := Relation.ReflTransGen RStep

/-! ## Concrete instances used by the decidable checks -/

/-- Two mutually linked restart candidates a and b, plus slow unrelated
children d and e; every waiting list only holds restart-scheduled
children. -/
def deadlockInit : RestartSys :=
  [("a", { phase := .waiting ["d", "b"], timerConsumed := false, chClosed := false }),
   ("b", { phase := .waiting ["e", "a"], timerConsumed := false, chClosed := false }),
   ("d", { phase := .waiting [], timerConsumed := false, chClosed := false }),
   ("e", { phase := .waiting [], timerConsumed := false, chClosed := false })]

/-- After both timers fired during the waits on d and e: a and b wait on
each other with drained timers. -/
def deadlockStuck : RestartSys :=
  setWorker
    (setWorker deadlockInit "a"
      { phase := .waiting ["b"], timerConsumed := true, chClosed := false })
    "b" { phase := .waiting ["a"], timerConsumed := true, chClosed := false }

/-- Workers a and b each wait on the other, with consumed timers and open
channels. -/
def MutualBlock (s : RestartSys) : Prop :=
  getWorker s "a" =
      some { phase := .waiting ["b"], timerConsumed := true, chClosed := false } ∧
  getWorker s "b" =
      some { phase := .waiting ["a"], timerConsumed := true, chClosed := false }

/-! ## Network and link attachment
(daemon/container_network_operations_unix.go, under src/) -/

inductive NetOpErr where
  | removalContainer (id : String)
  | updateConfigFailed
  | liveConnectFailed
  | liveDisconnectFailed
  | conflictHostNetwork
  | notConnected (id network : String)
  | saveToDiskFailed
deriving Repr, DecidableEq

/-- Caller-visible outcome of a network operation: the error if any, the
container state after the call (late errors keep earlier in-memory
mutations), and whether a persist-to-disk was attempted. -/
structure NetOpOut where
  res : Option NetOpErr
  c : Container
  persistAttempted : Bool
deriving Repr, DecidableEq

/-- The collaborators the network operations call out to:
updateNetworkConfig, the live connect/disconnect paths of the network
controller (which may mutate the settings of the container), and ToDiskLocking. -/
structure NetEnv where
  updateNetworkConfigOk : Bool
  liveConnect : Container → String → EndpointSettings → Option Container
  liveDisconnect : Container → String → Option Container
  toDiskOk : Bool

/-- `container.ToDiskLocking()` after a successful mutation; a disk failure
is surfaced but the in-memory mutation is kept. -/
def persistAfterMutate (env : NetEnv) (c : Container) : NetOpOut :=
  if env.toDiskOk then ⟨none, c, true⟩ else ⟨some .saveToDiskFailed, c, true⟩

/-- ConnectToNetwork (container_network_operations_unix.go:52-73). -/
def ConnectToNetwork (env : NetEnv) (c : Container) (idOrName : String)
    (endpointConfig : Option EndpointSettings) : NetOpOut :=
  let cfg := endpointConfig.getD {}
  if !c.running then
    if c.removalInProgress || c.dead then ⟨some (.removalContainer c.id), c, false⟩
    else if !env.updateNetworkConfigOk then ⟨some .updateConfigFailed, c, false⟩
    else persistAfterMutate env { c with networks := ainsert c.networks idOrName cfg }
  else
    match env.liveConnect c idOrName cfg with
    | none => ⟨some .liveConnectFailed, c, false⟩
    | some c1 => persistAfterMutate env c1

/-- The network mode recorded in the host configuration of the container. -/
def containerNetworkMode (c : Container) : String :=
  match c.hostConfig with
  | some hc => hc.networkMode
  | none => ""

/-- A libnetwork network reference: its name and its driver type. -/
structure NetworkRef where
  name : String
  driverType : String
deriving Repr, DecidableEq

/-- DisconnectFromNetwork (container_network_operations_unix.go:76-104):
the host-network conflict check comes first, then the removal guard, then
the settings mutation (or a not-connected error), then the persist. -/
def DisconnectFromNetwork (env : NetEnv) (c : Container) (n : NetworkRef)
    (_force : Bool) : NetOpOut :=
  if containerNetworkMode c == "host" && n.driverType == "host" then
    ⟨some .conflictHostNetwork, c, false⟩
  else if !c.running then
    if c.removalInProgress || c.dead then ⟨some (.removalContainer c.id), c, false⟩
    else if (alookup c.networks n.name).isSome then
      persistAfterMutate env { c with networks := aerase c.networks n.name }
    else ⟨some (.notConnected c.id n.name), c, false⟩
  else
    match env.liveDisconnect c n.name with
    | none => ⟨some .liveDisconnectFailed, c, false⟩
    | some c1 => persistAfterMutate env c1

inductive LinkSetupErr where
  | childNotRunning (childName linkAlias : String)
  | childNotOnBridge (childID : String)
deriving Repr, DecidableEq

/-- Modelled from the spec: links.NewLink(...).ToEnv() (the links package is
not under src/) - the discovery variables injected for one link; their
exact shape is irrelevant to the verified claims. -/
def linkEnvVars (parentAddr childAddr linkAlias : String) : List String :=
  [linkAlias ++ "_NAME", linkAlias ++ "_ADDR=" ++ childAddr, "PARENT_ADDR=" ++ parentAddr]

/-- The child loop of setupLinkedContainers
(container_network_operations_unix.go:25-46). -/
def linkedChildrenEnv (bridgeSettings : EndpointSettings) :
    List (String × Container) → Except LinkSetupErr (List String)
  | [] => .ok []
  | (linkAlias, child) :: rest =>
    if !child.running then .error (.childNotRunning child.name linkAlias)
    else
      match alookup child.networks defaultNetworkName with
      | none => .error (.childNotOnBridge child.id)
      | some childBridge =>
        match linkedChildrenEnv bridgeSettings rest with
        | .ok env =>
          .ok (linkEnvVars bridgeSettings.ipAddress childBridge.ipAddress linkAlias ++ env)
        | .error e => .error e

/-- setupLinkedContainers (container_network_operations_unix.go:16-49):
when the container itself is not attached to the default bridge network the
function returns nil, nil without looking at any child; otherwise each
linked child must be running and attached to the default bridge. -/
def setupLinkedContainers (c : Container) (children : List (String × Container)) :
    Except LinkSetupErr (List String) :=
  match alookup c.networks defaultNetworkName with
  | none => .ok []
  | some bridgeSettings => linkedChildrenEnv bridgeSettings children

/-! The five containers of TestGetContainer (daemon tests, under src/). -/

def tc1 : Container :=
  { id := "5a4ff6a163ad4533d22d69a2b8960bf7fafdcba06e72d2febdba229008b0bf57"
    name := "tender_bardeen" }

def tc2 : Container :=
  { id := "3cdbd1aa394fd68559fd1441d6eff2ab7c1e6363582c82febfaa8045df3bd8de"
    name := "drunk_hawking" }

def tc3 : Container :=
  { id := "3cdbd1aa394fd68559fd1441d6eff2abfafdcba06e72d2febdba229008b0bf57"
    name := "3cdbd1aa" }

def tc4 : Container :=
  { id := "75fb0b800922abdbef2d27e60abcdfaf7fb0698b2a96d22d3354da361a6ff4a5"
    name := "5a4ff6a163ad4533d22d69a2b8960bf7fafdcba06e72d2febdba229008b0bf57" }

def tc5 : Container :=
  { id := "d22d69a2b8960bf7fafdcba06e72d2febdba960bf7fafdcba06e72d2f9008b060b"
    name := "d22d69a2b896" }

def testContainers : List Container := [tc1, tc2, tc3, tc4, tc5]

/-- The daemon state TestGetContainer builds: store, ID index, and names
reserved through reserveName. -/
def testDaemonState : DaemonState :=
  let d0 : DaemonState :=
    { containers := testContainers.foldl (fun s c => storeAdd s c.id c) []
      nameIndex := []
      idIndex := testContainers.foldl (fun idx c => truncIndexAdd idx c.id) [] }
  testContainers.foldl (fun d c => (reserveName d c.id c.name).state) d0

/-! Inputs of the concrete restore scenarios. -/

/-- A container persisted mid-removal: RemovalInProgress set, not Dead, not
running, restart policy always. -/
def c3cont : Container :=
  { id := "r1", name := "/r1", removalInProgress := true
    hostConfig := some { restartPolicy := .always } }

def c3env : RestoreEnv :=
  { repositoryDir := some ["r1"]
    load := fun dn => if dn = "r1" then some c3cont else none
    currentDriver := ""
    getRWLayerOk := fun _ => true
    reinitRWLayerOk := fun _ => true
    containerdRestoreOk := fun _ => true
    autoRestart := true
    linkDBOpenOk := true
    migrateLegacySqliteLinksOk := fun _ => true
    children := fun _ => []
    waitOutcome := fun _ _ => .completed
    startBackendOk := fun _ => true }

/-- A mid-removal container recorded as running, in an environment where
its layer reinit fails: its worker returns early. -/
def c3contB : Container :=
  { id := "r2", name := "/r2", running := true, removalInProgress := true }

/-- A mid-removal container recorded as running whose layer reinit and
containerd restore succeed: its worker completes and resets the flags. -/
def c3contC : Container :=
  { id := "r3", name := "/r3", running := true, removalInProgress := true }

def c3envB : RestoreEnv :=
  { c3env with
    repositoryDir := some ["r2"]
    load := fun dn => if dn = "r2" then some c3contB else none
    reinitRWLayerOk := fun _ => false }

/-- A container carrying the nil-Links sentinel but recorded running, in an
environment where its layer reinit fails. -/
def c6cont : Container :=
  { id := "m1", name := "/m1", running := true
    hostConfig := some { links := none } }

def c6env : RestoreEnv :=
  { c3env with
    repositoryDir := some ["m1"]
    load := fun dn => if dn = "m1" then some c6cont else none
    reinitRWLayerOk := fun _ => false }

/-- A parent container not attached to the default bridge network, and a
stopped linked child. -/
def c9parent : Container := { id := "p1", name := "/web" }

def c9child : Container := { id := "q1", name := "/db" }

/-- A dead container whose host configuration uses host network mode, and a
host-driver network. -/
def c10cont : Container :=
  { id := "x1", dead := true, hostConfig := some { networkMode := "host" } }

def c10net : NetworkRef := { name := "hostnet", driverType := "host" }

def c10netEnv : NetEnv :=
  { updateNetworkConfigOk := true
    liveConnect := fun c _ _ => some c
    liveDisconnect := fun c _ => some c
    toDiskOk := true }

/-- A one-container environment where everything succeeds, used to witness
the restore theorems. -/
def wCont : Container := { id := "w1", name := "/w1" }

def trivialEnv : RestoreEnv :=
  { repositoryDir := some ["w1"]
    load := fun dn => if dn = "w1" then some wCont else none
    currentDriver := ""
    getRWLayerOk := fun _ => true
    reinitRWLayerOk := fun _ => true
    containerdRestoreOk := fun _ => true
    autoRestart := false
    linkDBOpenOk := true
    migrateLegacySqliteLinksOk := fun _ => true
    children := fun _ => []
    waitOutcome := fun _ _ => .completed
    startBackendOk := fun _ => true }

/-- The witness repository with a corrupt first candidate. -/
def c1wEnv : RestoreEnv := { trivialEnv with repositoryDir := some ["bad", "w1"] }

/-- An environment whose single loaded container carries the nil-Links
sentinel and completes its worker, used to witness the migration
theorems. -/
def c6wCont : Container := { id := "m2", name := "/m2", hostConfig := some { links := none } }

def c6wEnv : RestoreEnv :=
  { c3env with
    repositoryDir := some ["m2"]
    load := fun dn => if dn = "m2" then some c6wCont else none }

/-- A candidate persisted under a different storage driver than the active
aufs driver. -/
def c7badCont : Container := { id := "b1", name := "/b1", driver := "devicemapper" }

def c7badEnv : RestoreEnv :=
  { trivialEnv with
    repositoryDir := some ["b1"]
    load := fun dn => if dn = "b1" then some c7badCont else none
    currentDriver := "aufs" }

/-- A parent attached to the default bridge network, used to witness the
link-setup theorem. -/
def c9wParent : Container := { id := "p2", name := "/api", networks := [("bridge", {})] }

/-! Decidable checks reproducing daemon/names_test.go. -/

example : validContainerName "-rm" = false := by decide
example : validContainerName "safd%sd" = false := by decide
example : validContainerName "word-word" = true := by decide
example : validContainerName "word_word" = true := by decide
example : validContainerName "1weoid" = true := by decide

/-! ## Helper lemmas -/

theorem alookup_ainsert_self {α : Type} (l : List (String × α)) (k : String) (v : α) :
    alookup (ainsert l k v) k = some v := by
  induction l with
  | nil => simp [ainsert, alookup]
  | cons p rest ih =>
    obtain ⟨k1, v1⟩ := p
    by_cases h : k1 = k
    · simp [ainsert, h, alookup]
    · simp [ainsert, h, alookup, ih]

theorem alookup_ainsert_ne {α : Type} (l : List (String × α)) (k kq : String) (v : α)
    (h : kq ≠ k) : alookup (ainsert l k v) kq = alookup l kq := by
  induction l with
  | nil => simp [ainsert, alookup, Ne.symm h]
  | cons p rest ih =>
    obtain ⟨k1, v1⟩ := p
    by_cases h1 : k1 = k
    · subst h1
      simp [ainsert, alookup, Ne.symm h]
    · simp [ainsert, h1, alookup, ih]

theorem mem_cinsert {l : List Container} {c x : Container} (h : x ∈ cinsert l c) :
    x = c ∨ x ∈ l := by
  induction l with
  | nil => simpa [cinsert] using h
  | cons c1 rest ih =>
    by_cases h1 : c1.id = c.id
    · simp only [cinsert, if_pos h1] at h
      rcases List.mem_cons.mp h with rfl | hr
      · exact .inl rfl
      · exact .inr (List.mem_cons_of_mem _ hr)
    · simp only [cinsert, if_neg h1] at h
      rcases List.mem_cons.mp h with rfl | hr
      · exact .inr (List.mem_cons_self _ _)
      · rcases ih hr with rfl | hmem
        · exact .inl rfl
        · exact .inr (List.mem_cons_of_mem _ hmem)

theorem mem_loadStep {env : RestoreEnv} {acc : List Container} {dirName : String}
    {c : Container} (h : c ∈ loadStep env acc dirName) :
    c ∈ acc ∨ (env.load dirName = some c ∧
      driverCompatible c.driver env.currentDriver = true ∧
      env.getRWLayerOk c.id = true) := by
  cases hload : env.load dirName with
  | none => simp only [loadStep, hload] at h; exact .inl h
  | some c0 =>
    simp only [loadStep, hload] at h
    by_cases hd : driverCompatible c0.driver env.currentDriver = true
    · rw [if_pos hd] at h
      by_cases hrw : env.getRWLayerOk c0.id = true
      · rw [if_pos hrw] at h
        rcases mem_cinsert h with rfl | hmem
        · exact .inr ⟨rfl, hd, hrw⟩
        · exact .inl hmem
      · rw [if_neg hrw] at h; exact .inl h
    · rw [if_neg hd] at h; exact .inl h

theorem mem_foldl_loadStep (env : RestoreEnv) :
    ∀ (dirIds : List String) (acc : List Container) (c : Container),
      c ∈ dirIds.foldl (loadStep env) acc →
      c ∈ acc ∨ ∃ dn ∈ dirIds, env.load dn = some c ∧
        driverCompatible c.driver env.currentDriver = true ∧
        env.getRWLayerOk c.id = true := by
  intro dirIds
  induction dirIds with
  | nil => intro acc c h; exact .inl h
  | cons dn rest ih =>
    intro acc c h
    rcases ih (loadStep env acc dn) c h with hacc | ⟨dn2, hmem, hp⟩
    · rcases mem_loadStep hacc with hacc2 | hp
      · exact .inl hacc2
      · exact .inr ⟨dn, List.mem_cons_self _ _, hp⟩
    · exact .inr ⟨dn2, List.mem_cons_of_mem _ hmem, hp⟩

theorem mem_loadAndFilter {env : RestoreEnv} {dirIds : List String} {c : Container}
    (h : c ∈ loadAndFilter env dirIds) :
    ∃ dn ∈ dirIds, env.load dn = some c ∧
      driverCompatible c.driver env.currentDriver = true ∧
      env.getRWLayerOk c.id = true := by
  rcases mem_foldl_loadStep env dirIds [] c h with hacc | hp
  · cases hacc
  · exact hp

/-! ## C7 -/

/-- C7: restore skips any loadable on-disk container whose recorded storage
driver differs from the active graph driver, with exactly one exception: an
empty recorded driver is accepted when the active driver is aufs.  The
filter predicate is exactly that rule, an incompatible candidate leaves the
scan accumulator untouched, and every scanned-in container is compatible. -/
theorem C7_driver_filter :
    (∀ d cur : String,
      driverCompatible d cur = true ↔ (d = cur ∨ (d = "" ∧ cur = "aufs"))) ∧
    (∀ (env : RestoreEnv) (acc : List Container) (dirName : String) (c : Container),
      env.load dirName = some c →
      driverCompatible c.driver env.currentDriver = false →
      loadStep env acc dirName = acc) ∧
    (∀ (env : RestoreEnv) (dirIds : List String) (c : Container),
      c ∈ loadAndFilter env dirIds →
      driverCompatible c.driver env.currentDriver = true) := by
  refine ⟨?_, ?_, ?_⟩
  · intro d cur
    simp only [driverCompatible, Bool.or_eq_true, Bool.and_eq_true, beq_iff_eq]
    tauto
  · intro env acc dirName c hl hd
    simp [loadStep, hl, hd]
  · intro env dirIds c h
    exact (mem_loadAndFilter h).choose_spec.2.2.1

/-- Witness: the filter at concrete inputs - an empty driver under aufs is
accepted, a devicemapper container under aufs is skipped by the scan. -/
theorem C7_witness :
    (driverCompatible "" "aufs" = true ↔
      (("" : String) = "aufs" ∨ (("" : String) = "" ∧ ("aufs" : String) = "aufs"))) ∧
    loadStep c7badEnv [] "b1" = [] :=
  ⟨C7_driver_filter.1 "" "aufs",
   C7_driver_filter.2.1 c7badEnv [] "b1" c7badCont (by decide) (by decide)⟩

/-! ## C9 -/

/-- C9 counterexample: a container that is not attached to the default
bridge network gets nil, nil from setupLinkedContainers even though its
linked child is not running - refuting the claim that the call fails
whenever any linked child is not running. -/
theorem C9_counterexample :
    c9child.running = false ∧
    setupLinkedContainers c9parent [("db", c9child)] = .ok [] := by decide

theorem linkedChildrenEnv_error (bs : EndpointSettings) :
    ∀ children : List (String × Container),
      (∃ p ∈ children, p.2.running = false) →
      ∃ e, linkedChildrenEnv bs children = .error e := by
  intro children
  induction children with
  | nil => rintro ⟨p, hp, _⟩; cases hp
  | cons hd rest ih =>
    rintro ⟨p, hp, hrun⟩
    obtain ⟨la, child⟩ := hd
    by_cases hc : child.running = true
    · rcases List.mem_cons.mp hp with rfl | hrest
      · rw [hc] at hrun; cases hrun
      · obtain ⟨e, he⟩ := ih ⟨p, hrest, hrun⟩
        simp only [linkedChildrenEnv, hc, Bool.not_true, Bool.false_eq_true,
          if_false]
        cases hb : alookup child.networks defaultNetworkName with
        | none => exact ⟨_, rfl⟩
        | some cb => rw [he]; exact ⟨e, rfl⟩
    · simp only [Bool.not_eq_true] at hc
      exact ⟨.childNotRunning child.name la, by simp [linkedChildrenEnv, hc]⟩

/-- C9 (amended): setupLinkedContainers returns nil, nil without examining
any child when the container itself is not attached to the default bridge
network; otherwise it returns an error whenever any linked child is not
running. -/
theorem C9_link_requires_running :
    (∀ (c : Container) (children : List (String × Container)),
      alookup c.networks defaultNetworkName = none →
      setupLinkedContainers c children = .ok []) ∧
    (∀ (c : Container) (children : List (String × Container)) (bs : EndpointSettings),
      alookup c.networks defaultNetworkName = some bs →
      (∃ p ∈ children, p.2.running = false) →
      ∃ e, setupLinkedContainers c children = .error e) := by
  constructor
  · intro c children h
    simp [setupLinkedContainers, h]
  · intro c children bs h hex
    simp only [setupLinkedContainers, h]
    exact linkedChildrenEnv_error bs children hex

/-- Witness: a bridge-attached parent with a stopped child fails. -/
theorem C9_witness :
    ∃ e, setupLinkedContainers c9wParent [("db", c9child)] = .error e :=
  C9_link_requires_running.2 c9wParent [("db", c9child)] {} (by decide)
    ⟨("db", c9child), by decide, by decide⟩

/-! ## C10 -/

/-- C10 counterexample: a dead, not-running container whose host config
uses host network mode, disconnected from a host-driver network, gets the
host-network conflict error rather than the marked-for-removal error. -/
theorem C10_counterexample :
    c10cont.running = false ∧ c10cont.dead = true ∧
    DisconnectFromNetwork c10netEnv c10cont c10net false =
      { res := some .conflictHostNetwork, c := c10cont, persistAttempted := false } := by
  decide

/-- C10 (amended): on a container that is not running and is marked
RemovalInProgress or Dead, ConnectToNetwork returns the marked-for-removal
error before any mutation or persist; DisconnectFromNetwork does the same
unless the host-network conflict check fires first, and that check also
returns before any mutation or persist. -/
theorem C10_removal_guard :
    (∀ (env : NetEnv) (c : Container) (idOrName : String)
        (cfg : Option EndpointSettings), c.running = false →
      (c.removalInProgress = true ∨ c.dead = true) →
      ConnectToNetwork env c idOrName cfg =
        { res := some (.removalContainer c.id), c := c, persistAttempted := false }) ∧
    (∀ (env : NetEnv) (c : Container) (n : NetworkRef) (force : Bool),
      c.running = false →
      (c.removalInProgress = true ∨ c.dead = true) →
      (containerNetworkMode c == "host" && n.driverType == "host") = false →
      DisconnectFromNetwork env c n force =
        { res := some (.removalContainer c.id), c := c, persistAttempted := false }) ∧
    (∀ (env : NetEnv) (c : Container) (n : NetworkRef) (force : Bool),
      (containerNetworkMode c == "host" && n.driverType == "host") = true →
      DisconnectFromNetwork env c n force =
        { res := some .conflictHostNetwork, c := c, persistAttempted := false }) := by
  refine ⟨?_, ?_, ?_⟩
  · intro env c idOrName cfg hrun hflag
    rcases hflag with h | h <;> simp [ConnectToNetwork, hrun, h]
  · intro env c n force hrun hflag hhost
    rcases hflag with h | h <;> simp [DisconnectFromNetwork, hrun, h, hhost]
  · intro env c n force hhost
    simp [DisconnectFromNetwork, hhost]

/-- Witness: the guard at a concrete dead container and network. -/
theorem C10_witness :
    ConnectToNetwork c10netEnv c10cont "isolated" none =
      { res := some (.removalContainer c10cont.id), c := c10cont,
        persistAttempted := false } :=
  C10_removal_guard.1 c10netEnv c10cont "isolated" none (by decide)
    (Or.inr (by decide))

/-! ## C8 -/

/-- C8: reserveName on a name already reserved for another container fails
with the Conflict error naming the existing owner, leaves the daemon state
(and hence the existing reservation) unchanged, and reserving the same name
for two different IDs in sequence yields exactly one success. -/
theorem C8_reserveName_conflict :
    (∀ (d : DaemonState) (id name owner : String), validContainerName name = true →
      registrarGet d.nameIndex (fullName name) = some owner →
      reserveName d id name = ⟨.error (.conflict (fullName name) owner), d⟩) ∧
    (∀ (d : DaemonState) (id1 id2 name : String), validContainerName name = true →
      registrarGet d.nameIndex (fullName name) = none →
      ∃ d1, reserveName d id1 name = ⟨.ok (fullName name), d1⟩ ∧
        reserveName d1 id2 name = ⟨.error (.conflict (fullName name) id1), d1⟩ ∧
        registrarGet d1.nameIndex (fullName name) = some id1) := by
  constructor
  · intro d id name owner hv hget
    simp [reserveName, hv, registrarReserve, registrarGet] at hget ⊢
    simp [hget]
  · intro d id1 id2 name hv hget
    refine ⟨{ d with nameIndex := (fullName name, id1) :: d.nameIndex }, ?_, ?_, ?_⟩
    · simp [reserveName, hv, registrarReserve, registrarGet] at hget ⊢
      simp [hget]
    · simp [reserveName, hv, registrarReserve, registrarGet, alookup]
    · simp [registrarGet, alookup]

/-- Witness: the name /web reserved for i1 is refused for i2 with a
Conflict naming i1. -/
theorem C8_witness :
    ∃ d1, reserveName emptyDaemon "i1" "web" = ⟨.ok (fullName "web"), d1⟩ ∧
      reserveName d1 "i2" "web" = ⟨.error (.conflict (fullName "web") "i1"), d1⟩ ∧
      registrarGet d1.nameIndex (fullName "web") = some "i1" :=
  C8_reserveName_conflict.2 emptyDaemon "i1" "i2" "web" (by decide) (by decide)

/-! ## C2 -/

theorem truncIndexGet_ambiguous {idx : TruncIndex} {pfx i1 i2 : String}
    (h1 : i1 ∈ idx) (h2 : i2 ∈ idx) (hne : i1 ≠ i2)
    (hp1 : strIsPfxOf pfx i1 = true) (hp2 : strIsPfxOf pfx i2 = true) :
    truncIndexGet idx pfx = .error .ambiguous := by
  have hm1 : i1 ∈ idx.filter (fun id => strIsPfxOf pfx id) :=
    List.mem_filter.mpr ⟨h1, hp1⟩
  have hm2 : i2 ∈ idx.filter (fun id => strIsPfxOf pfx id) :=
    List.mem_filter.mpr ⟨h2, hp2⟩
  unfold truncIndexGet
  cases hf : idx.filter (fun id => strIsPfxOf pfx id) with
  | nil => rw [hf] at hm1; cases hm1
  | cons a rest =>
    cases rest with
    | nil =>
      rw [hf] at hm1 hm2
      have e1 := List.mem_singleton.mp hm1
      have e2 := List.mem_singleton.mp hm2
      exact absurd (e1.trans e2.symm) hne
    | cons b rest2 => rfl

theorem truncIndexGet_notFound {idx : TruncIndex} {pfx : String}
    (h : ∀ j ∈ idx, strIsPfxOf pfx j = false) :
    truncIndexGet idx pfx = .error .notFound := by
  have hf : idx.filter (fun id => strIsPfxOf pfx id) = [] := by
    rw [List.filter_eq_nil_iff]
    intro j hj
    simp [h j hj]
  unfold truncIndexGet
  rw [hf]

/-- C2: GetContainer tries, in order, exact full-ID match, exact name match
through the registrar, then unambiguous ID-prefix match; a ref that is a
reserved name resolves to the name owner even when it collides with other
IDs as a prefix; a prefix of two distinct indexed IDs matching no name is
Ambiguous; a ref matching nothing is NotFound.  The final block replays the
TestGetContainer scenario from the source tests. -/
theorem C2_GetContainer_resolution :
    (∀ (d : DaemonState) (ref : String) (c : Container),
      storeGet d.containers ref = some c → GetContainer d ref = .ok c) ∧
    (∀ (d : DaemonState) (ref id : String) (c : Container),
      storeGet d.containers ref = none →
      registrarGet d.nameIndex (fullName ref) = some id →
      storeGet d.containers id = some c →
      GetContainer d ref = .ok c) ∧
    (∀ (d : DaemonState) (ref i1 i2 : String),
      storeGet d.containers ref = none → GetByName d ref = none →
      i1 ∈ d.idIndex → i2 ∈ d.idIndex → i1 ≠ i2 →
      strIsPfxOf ref i1 = true → strIsPfxOf ref i2 = true →
      GetContainer d ref = .error .ambiguous) ∧
    (∀ (d : DaemonState) (ref : String),
      storeGet d.containers ref = none → GetByName d ref = none →
      (∀ j ∈ d.idIndex, strIsPfxOf ref j = false) →
      GetContainer d ref = .error .notFound) ∧
    (GetContainer testDaemonState
        "3cdbd1aa394fd68559fd1441d6eff2ab7c1e6363582c82febfaa8045df3bd8de" = .ok tc2 ∧
     GetContainer testDaemonState "75fb0b8009" = .ok tc4 ∧
     GetContainer testDaemonState "drunk_hawking" = .ok tc2 ∧
     GetContainer testDaemonState "3cdbd1aa" = .ok tc3 ∧
     GetContainer testDaemonState "d22d69a2b896" = .ok tc5 ∧
     GetContainer testDaemonState "3cdbd1" = .error .ambiguous ∧
     GetContainer testDaemonState "nothing" = .error .notFound) := by
  refine ⟨?_, ?_, ?_, ?_, ?_⟩
  · intro d ref c h
    simp [GetContainer, h]
  · intro d ref id c h1 h2 h3
    simp [GetContainer, h1, GetByName, h2, h3]
  · intro d ref i1 i2 h1 hbn hm1 hm2 hne hp1 hp2
    have ha := truncIndexGet_ambiguous hm1 hm2 hne hp1 hp2
    simp [GetContainer, h1, hbn, ha]
  · intro d ref h1 hbn hall
    have hn := truncIndexGet_notFound hall
    simp [GetContainer, h1, hbn, hn]
  · exact ⟨by decide, by decide, by decide, by decide, by decide, by decide, by decide⟩

/-- Witness: exact full-ID resolution at a concrete store. -/
theorem C2_witness :
    GetContainer testDaemonState
      "5a4ff6a163ad4533d22d69a2b8960bf7fafdcba06e72d2febdba229008b0bf57" = .ok tc1 :=
  C2_GetContainer_resolution.1 testDaemonState
    "5a4ff6a163ad4533d22d69a2b8960bf7fafdcba06e72d2febdba229008b0bf57" tc1 (by decide)

/-! ## C5 helper lemmas -/

theorem alookup_filter_key_self {α : Type} (l : List (String × α)) (k : String) :
    alookup (l.filter fun p => p.1 != k) k = none := by
  induction l with
  | nil => rfl
  | cons p rest ih =>
    obtain ⟨k1, v1⟩ := p
    by_cases h : k1 = k
    · simp [h, ih]
    · simp [List.filter_cons, h, alookup, ih]

theorem alookup_filter_key_ne {α : Type} (l : List (String × α)) (k kq : String)
    (h : kq ≠ k) : alookup (l.filter fun p => p.1 != k) kq = alookup l kq := by
  induction l with
  | nil => rfl
  | cons p rest ih =>
    obtain ⟨k1, v1⟩ := p
    by_cases h1 : k1 = k
    · subst h1
      simp [alookup, Ne.symm h, ih]
    · simp [List.filter_cons, h1, alookup, ih]

theorem any_snd_filter_self (l : List (String × String)) (id : String) :
    ((l.filter fun p => p.2 != id).any fun p => p.2 == id) = false := by
  induction l with
  | nil => rfl
  | cons p rest ih =>
    obtain ⟨k1, v1⟩ := p
    by_cases h : v1 = id
    · simp [h, ih]
    · simp [List.filter_cons, h, ih]

theorem any_snd_filter_ne (l : List (String × String)) (id idq : String)
    (h : idq ≠ id) :
    ((l.filter fun p => p.2 != id).any fun p => p.2 == idq) =
      (l.any fun p => p.2 == idq) := by
  induction l with
  | nil => rfl
  | cons p rest ih =>
    obtain ⟨k1, v1⟩ := p
    by_cases h1 : v1 = id
    · subst h1
      simp [Ne.symm h, ih]
    · simp [List.filter_cons, h1, ih]

theorem contains_filter_self (l : List String) (id : String) :
    ((l.filter fun j => j != id).contains id) = false := by
  induction l with
  | nil => rfl
  | cons a rest ih =>
    by_cases h : a = id
    · simp [h, ih]
    · simp [List.filter_cons, h, List.contains_cons, ih, Ne.symm h]

theorem contains_filter_ne (l : List String) (id idq : String) (h : idq ≠ id) :
    ((l.filter fun j => j != id).contains idq) = l.contains idq := by
  induction l with
  | nil => rfl
  | cons a rest ih =>
    by_cases h1 : a = id
    · subst h1
      simp [List.contains_cons, Ne.symm h, ih, h]
    · simp [List.filter_cons, h1, List.contains_cons, ih, h]

theorem consistent_registerContainer {d : DaemonState} (hd : Consistent d)
    (c : Container) : Consistent (registerContainer d c) := by
  unfold registerContainer registerName
  by_cases hex : storeHas d.containers c.id
  · simp only [hex, if_true]
    exact hd
  · simp only [hex, Bool.false_eq_true, if_false]
    unfold registrarReserve
    by_cases hres : (alookup d.nameIndex c.name).isSome
    · simp only [hres, if_true]
      exact hd
    · simp only [hres, Bool.false_eq_true, if_false]
      intro id0
      have hidx : indexHas d.idIndex c.id = false := by
        have := (hd c.id).2
        rw [← this]
        simpa using hex
      have hcontains : d.idIndex.contains c.id = false := hidx
      have hnotmem : c.id ∉ d.idIndex := by simpa using hcontains
      by_cases h0 : id0 = c.id
      · subst h0
        constructor
        · simp [Register, storeHas, storeGet, storeAdd, alookup_ainsert_self,
            registrarOwns]
        · simp [Register, truncIndexAdd, indexHas, hcontains, hnotmem, storeHas,
            storeGet, storeAdd, alookup_ainsert_self, List.contains_cons]
      · have hslookup : storeHas (storeAdd d.containers c.id c) id0 =
            storeHas d.containers id0 := by
          simp [storeHas, storeGet, storeAdd, alookup_ainsert_ne _ _ _ _ h0]
        constructor
        · rw [Register]
          simp only [hslookup]
          have : registrarOwns ((c.name, c.id) :: d.nameIndex) id0 =
              registrarOwns d.nameIndex id0 := by
            simp [registrarOwns, List.any_cons, Ne.symm h0]
          simp only [this]
          exact (hd id0).1
        · rw [Register]
          simp only [hslookup]
          have : indexHas (truncIndexAdd d.idIndex c.id) id0 =
              indexHas d.idIndex id0 := by
            unfold truncIndexAdd indexHas
            rw [hcontains]
            simp [List.contains_cons, h0]
          simp only [this]
          exact (hd id0).2

theorem consistent_unregisterContainer {d : DaemonState} (hd : Consistent d)
    (id : String) : Consistent (unregisterContainer d id) := by
  intro id0
  by_cases h0 : id0 = id
  · subst h0
    constructor
    · simp [unregisterContainer, storeHas, storeGet, alookup_filter_key_self,
        registrarOwns, any_snd_filter_self]
    · simp [unregisterContainer, storeHas, storeGet, alookup_filter_key_self,
        indexHas, truncIndexDelete, contains_filter_self]
  · constructor
    · simp only [unregisterContainer, storeHas, storeGet,
        alookup_filter_key_ne _ _ _ h0, registrarOwns, any_snd_filter_ne _ _ _ h0]
      exact (hd id0).1
    · simp only [unregisterContainer, storeHas, storeGet,
        alookup_filter_key_ne _ _ _ h0, indexHas, truncIndexDelete,
        contains_filter_ne _ _ _ h0]
      exact (hd id0).2

theorem consistent_registerAll (cs : List Container) :
    ∀ d : DaemonState, Consistent d → Consistent (registerAll d cs) := by
  induction cs with
  | nil => intro d hd; exact hd
  | cons c rest ih =>
    intro d hd
    exact ih (registerContainer d c) (consistent_registerContainer hd c)

theorem storeHas_finalizeStore (d : DaemonState) (cs : List Container)
    (id : String) :
    storeHas (finalizeStore d cs).containers id = storeHas d.containers id := by
  unfold finalizeStore storeHas storeGet
  simp only
  induction d.containers with
  | nil => rfl
  | cons p rest ih =>
    obtain ⟨k1, v1⟩ := p
    by_cases h : k1 = id
    · subst h
      cases hcf : cfind cs k1 <;> simp [alookup, hcf, ih]
    · cases hcf : cfind cs k1 <;> simp [alookup, hcf, h, ih]

theorem consistent_finalizeStore {d : DaemonState} (hd : Consistent d)
    (cs : List Container) : Consistent (finalizeStore d cs) := by
  intro id0
  rw [storeHas_finalizeStore]
  exact hd id0

theorem idIndex_registerName {d : DaemonState} {c : Container} {d1 : DaemonState}
    (h : registerName d c = some d1) : d1.idIndex = d.idIndex := by
  unfold registerName at h
  by_cases hex : storeHas d.containers c.id
  · simp [hex] at h
  · simp only [hex, Bool.false_eq_true, if_false] at h
    unfold registrarReserve at h
    by_cases hres : (alookup d.nameIndex c.name).isSome
    · simp [hres] at h
    · simp only [hres, Bool.false_eq_true, if_false] at h
      cases h
      rfl

theorem nodup_truncIndexAdd {idx : TruncIndex} (h : idx.Nodup) (id : String) :
    (truncIndexAdd idx id).Nodup := by
  unfold truncIndexAdd
  by_cases hm : id ∈ idx
  · rw [if_pos (List.elem_iff.mpr hm)]
    exact h
  · rw [if_neg (fun hc => hm (List.elem_iff.mp hc))]
    exact List.nodup_cons.mpr ⟨hm, h⟩

theorem nodup_idIndex_registerContainer {d : DaemonState} (h : d.idIndex.Nodup)
    (c : Container) : (registerContainer d c).idIndex.Nodup := by
  unfold registerContainer
  cases hr : registerName d c with
  | none => exact h
  | some d1 =>
    have he := idIndex_registerName hr
    simp only [Register]
    rw [he]
    exact nodup_truncIndexAdd h c.id

theorem nodup_idIndex_registerAll (cs : List Container) :
    ∀ d : DaemonState, d.idIndex.Nodup → (registerAll d cs).idIndex.Nodup := by
  induction cs with
  | nil => intro d hd; exact hd
  | cons c rest ih =>
    intro d hd
    exact ih (registerContainer d c) (nodup_idIndex_registerContainer hd c)

theorem strIsPfxOf_refl (s : String) : strIsPfxOf s s = true := by
  unfold strIsPfxOf
  induction s.toList with
  | nil => rfl
  | cons a l ih => simp [List.isPrefixOf, ih]

theorem filter_pfx_eq_single {idx : List String} {id : String} (hnd : idx.Nodup)
    (hmem : id ∈ idx) (hall : ∀ j ∈ idx, strIsPfxOf id j = true → j = id) :
    idx.filter (fun j => strIsPfxOf id j) = [id] := by
  induction idx with
  | nil => cases hmem
  | cons a rest ih =>
    have hnd2 := List.nodup_cons.mp hnd
    by_cases ha : a = id
    · subst ha
      rw [List.filter_cons_of_pos (by simpa using strIsPfxOf_refl a)]
      have : rest.filter (fun j => strIsPfxOf a j) = [] := by
        rw [List.filter_eq_nil_iff]
        intro j hj hpj
        have := hall j (List.mem_cons_of_mem _ hj) (by simpa using hpj)
        subst this
        exact hnd2.1 hj
      rw [this]
    · have hmem2 : id ∈ rest := by
        rcases List.mem_cons.mp hmem with h | h
        · exact absurd h.symm ha
        · exact h
      have hpa : strIsPfxOf id a = false := by
        by_contra hcon
        have : strIsPfxOf id a = true := by
          cases hv : strIsPfxOf id a
          · exact absurd hv hcon
          · rfl
        exact ha (hall a (List.mem_cons_self _ _) this)
      rw [List.filter_cons_of_neg (by simp [hpa])]
      exact ih hnd2.2 hmem2 (fun j hj => hall j (List.mem_cons_of_mem _ hj))

theorem truncIndexGet_exact {idx : TruncIndex} {id : String} (hnd : idx.Nodup)
    (hmem : id ∈ idx) (hall : ∀ j ∈ idx, strIsPfxOf id j = true → j = id) :
    truncIndexGet idx id = .ok id := by
  unfold truncIndexGet
  rw [filter_pfx_eq_single hnd hmem hall]

/-! ## C5 -/

/-- C5: the store, the name registrar and the ID index agree at every
quiescent point: they agree on the empty state, agreement is preserved by
container registration (the skip-on-conflict loop of restore) and by
removal de-registration, the daemon state restore produces is consistent,
and a stored ID whose full value is not a proper prefix of another indexed
ID is findable in the ID index by its full value. -/
theorem C5_index_consistency :
    Consistent emptyDaemon ∧
    (∀ (d : DaemonState) (c : Container),
      Consistent d → Consistent (registerContainer d c)) ∧
    (∀ (d : DaemonState) (id : String),
      Consistent d → Consistent (unregisterContainer d id)) ∧
    (∀ (env : RestoreEnv) (dirIds : List String) (tr : List RestoreEvent),
      Consistent (restoreSuccess env dirIds tr).daemonState ∧
      (restoreSuccess env dirIds tr).daemonState.idIndex.Nodup) ∧
    (∀ (d : DaemonState) (id : String), Consistent d → d.idIndex.Nodup →
      storeHas d.containers id = true →
      (∀ j ∈ d.idIndex, strIsPfxOf id j = true → j = id) →
      truncIndexGet d.idIndex id = .ok id) := by
  have hemp : Consistent emptyDaemon := by
    intro id0
    simp [emptyDaemon, storeHas, storeGet, alookup, registrarOwns, indexHas]
  refine ⟨hemp, fun d c hd => consistent_registerContainer hd c,
    fun d id hd => consistent_unregisterContainer hd id, ?_, ?_⟩
  · intro env dirIds tr
    constructor
    · exact consistent_finalizeStore
        (consistent_registerAll _ emptyDaemon hemp) _
    · simp only [restoreSuccess, finalizeStore]
      exact nodup_idIndex_registerAll _ emptyDaemon (by simp [emptyDaemon])
  · intro d id hd hnd hstore hall
    have hidx : indexHas d.idIndex id = true := by
      rw [← (hd id).2]
      exact hstore
    have hmem : id ∈ d.idIndex := List.elem_iff.mp hidx
    exact truncIndexGet_exact hnd hmem hall

/-- Witness: consistency and full-ID findability on the state restore
builds for a concrete one-container repository. -/
theorem C5_witness :
    Consistent (restoreSuccess trivialEnv ["w1"] []).daemonState ∧
    truncIndexGet (restoreSuccess trivialEnv ["w1"] []).daemonState.idIndex "w1" =
      .ok "w1" := by
  have h := C5_index_consistency.2.2.2.1 trivialEnv ["w1"] []
  refine ⟨h.1, ?_⟩
  exact C5_index_consistency.2.2.2.2 (restoreSuccess trivialEnv ["w1"] []).daemonState
    "w1" h.1 h.2 (by decide) (by decide)

/-! ## Restore helper lemmas -/

theorem restoreContainerStep_id (env : RestoreEnv) (c : Container) :
    (restoreContainerStep env c).c.id = c.id := by
  unfold restoreContainerStep
  split
  · rfl
  · by_cases hr : c.removalInProgress = true <;> simp [hr]

theorem linksLoop_eq_ok (env : RestoreEnv) (migrate : Bool) :
    ∀ cs : List Container,
      (∀ c ∈ cs, (migrate && !env.migrateLegacySqliteLinksOk c.id) = false) →
      linksLoop env migrate cs = .ok (linksTraceOf migrate cs) := by
  intro cs
  induction cs with
  | nil => intro _; rfl
  | cons c rest ih =>
    intro h
    have hc := h c (List.mem_cons_self _ _)
    have hrest := ih (fun x hx => h x (List.mem_cons_of_mem _ hx))
    simp [linksLoop, hc, hrest, linksTraceOf]

theorem linksLoop_error_of_bad (env : RestoreEnv) :
    ∀ (cs : List Container) (c : Container), c ∈ cs →
      env.migrateLegacySqliteLinksOk c.id = false →
      ∃ id, linksLoop env true cs = .error (.migrationFailed id) ∧
        env.migrateLegacySqliteLinksOk id = false := by
  intro cs
  induction cs with
  | nil => intro c h; cases h
  | cons c0 rest ih =>
    intro c hmem hbad
    by_cases h0 : env.migrateLegacySqliteLinksOk c0.id = true
    · rcases List.mem_cons.mp hmem with rfl | hrest
      · rw [h0] at hbad; cases hbad
      · obtain ⟨id, hid, hbad2⟩ := ih c hrest hbad
        refine ⟨id, ?_, hbad2⟩
        simp [linksLoop, h0, hid]
    · have h0f : env.migrateLegacySqliteLinksOk c0.id = false := by
        cases hv : env.migrateLegacySqliteLinksOk c0.id
        · rfl
        · exact absurd hv h0
      exact ⟨c0.id, by simp [linksLoop, h0f], h0f⟩

theorem linksLoop_error_inv (env : RestoreEnv) (migrate : Bool) :
    ∀ (cs : List Container) (e : RestoreErr), linksLoop env migrate cs = .error e →
      ∃ id, e = .migrationFailed id ∧ migrate = true ∧
        env.migrateLegacySqliteLinksOk id = false := by
  intro cs
  induction cs with
  | nil => intro e h; simp [linksLoop] at h
  | cons c rest ih =>
    intro e h
    by_cases hc : (migrate && !env.migrateLegacySqliteLinksOk c.id) = true
    · rw [linksLoop, if_pos hc] at h
      obtain ⟨hm, hok⟩ := Bool.and_eq_true_iff.mp hc
      refine ⟨c.id, ?_, hm, by simpa using hok⟩
      cases h
      rfl
    · rw [linksLoop, if_neg hc] at h
      cases hrec : linksLoop env migrate rest with
      | error e2 =>
        rw [hrec] at h
        cases h
        exact ih _ hrec
      | ok tr => rw [hrec] at h; cases h

theorem linksLoop_no_openLinkDB (env : RestoreEnv) (migrate : Bool) :
    ∀ (cs : List Container) (tr : List RestoreEvent),
      linksLoop env migrate cs = .ok tr → RestoreEvent.openLinkDB ∉ tr := by
  intro cs
  induction cs with
  | nil =>
    intro tr h
    simp only [linksLoop] at h
    cases h
    simp
  | cons c rest ih =>
    intro tr h
    by_cases hc : (migrate && !env.migrateLegacySqliteLinksOk c.id) = true
    · rw [linksLoop, if_pos hc] at h; cases h
    · rw [linksLoop, if_neg hc] at h
      cases hrec : linksLoop env migrate rest with
      | error e2 => rw [hrec] at h; cases h
      | ok tr2 =>
        rw [hrec] at h
        cases h
        intro hmem
        rcases List.mem_append.mp hmem with hmem1 | hmem2
        · cases hmig : migrate <;> rw [hmig] at hmem1 <;> simp at hmem1
        · rcases List.mem_cons.mp hmem2 with hbad | hmem3
          · cases hbad
          · exact ih tr2 hrec hmem3

theorem restore_ok_inv {env : RestoreEnv} {r : RestoreResult}
    (h : restore env = .ok r) :
    ∃ dirIds tr, env.repositoryDir = some dirIds ∧
      linksLoop env (restoreMigrateFlag env dirIds) (restoreCs1 env dirIds) = .ok tr ∧
      r = restoreSuccess env dirIds tr := by
  cases hdir : env.repositoryDir with
  | none => simp [restore, hdir] at h
  | some dirIds =>
    simp only [restore, hdir] at h
    by_cases hflag :
        (restoreMigrateFlag env dirIds && !env.linkDBOpenOk) = true
    · rw [if_pos hflag] at h; cases h
    · rw [if_neg hflag] at h
      cases hloop : linksLoop env (restoreMigrateFlag env dirIds)
          (restoreCs1 env dirIds) with
      | error e2 => rw [hloop] at h; cases h
      | ok tr =>
        rw [hloop] at h
        cases h
        exact ⟨dirIds, tr, rfl, hloop, rfl⟩

theorem openLinkDB_not_mem_resetTrace (env : RestoreEnv) (dirIds : List String) :
    RestoreEvent.openLinkDB ∉ restoreResetTrace env dirIds := by
  intro h
  obtain ⟨o, _, hbad⟩ := List.mem_map.mp h
  cases hbad

theorem openLinkDB_not_mem_workerTrace (restartIds : List String)
    (oracle : String → WaitOutcome) (c : Container) (childIds : List String) :
    RestoreEvent.openLinkDB ∉ restartWorkerTrace restartIds oracle c childIds := by
  intro h
  rcases List.mem_append.mp h with h1 | h2
  · obtain ⟨ch, _, hbad⟩ := List.mem_filterMap.mp h1
    by_cases hc : restartIds.contains ch = true <;> simp [hc] at hbad
  · exact absurd (List.mem_singleton.mp h2) (by simp)

theorem openLinkDB_not_mem_restartTrace (env : RestoreEnv) (dirIds : List String) :
    RestoreEvent.openLinkDB ∉ restoreRestartTrace env dirIds := by
  unfold restoreRestartTrace
  induction (restoreCs1 env dirIds).filter
      (fun c => (restoreRestartIds env dirIds).contains c.id) with
  | nil => simp
  | cons c rest ih =>
    rw [List.foldr_cons]
    intro h
    rcases List.mem_append.mp h with h1 | h2
    · exact openLinkDB_not_mem_workerTrace _ _ _ _ h1
    · exact ih h2

theorem openLinkDB_not_mem_mountTrace (env : RestoreEnv) (dirIds : List String) :
    RestoreEvent.openLinkDB ∉
      ((restoreCs1 env dirIds).filter
          (fun c => !(restoreRestartIds env dirIds).contains c.id)).map
        (fun c => RestoreEvent.prepareMounts c.id) := by
  intro h
  obtain ⟨o, _, hbad⟩ := List.mem_map.mp h
  cases hbad

theorem count_openLinkDB_restoreSuccess (env : RestoreEnv) (dirIds : List String)
    (tr : List RestoreEvent) (htr : RestoreEvent.openLinkDB ∉ tr) :
    (restoreSuccess env dirIds tr).trace.count RestoreEvent.openLinkDB =
      (if restoreMigrateFlag env dirIds then 1 else 0) := by
  have h1 := List.count_eq_zero.mpr (openLinkDB_not_mem_resetTrace env dirIds)
  have h2 := List.count_eq_zero.mpr htr
  have h3 := List.count_eq_zero.mpr (openLinkDB_not_mem_restartTrace env dirIds)
  have h4 := List.count_eq_zero.mpr (openLinkDB_not_mem_mountTrace env dirIds)
  simp only [restoreSuccess, List.count_append, h1, h2, h3, h4]
  by_cases hflag : restoreMigrateFlag env dirIds = true <;> simp [hflag]

/-! ## C1 -/

/-- C1: a deserialization failure for one container is skipped and every
other loadable container is unaffected; restore completes whenever the
repository directory read, the legacy-DB open and the migrations succeed,
and an error return can only be the repository read failing, the legacy
link-database open failing, or a legacy migration failing - never a corrupt
single container. -/
theorem C1_restore_resilience :
    (∀ (env : RestoreEnv) (dirIds : List String), env.repositoryDir = some dirIds →
      (∀ c ∈ restoreCs1 env dirIds,
        (restoreMigrateFlag env dirIds && !env.migrateLegacySqliteLinksOk c.id) = false) →
      (restoreMigrateFlag env dirIds = true → env.linkDBOpenOk = true) →
      restore env = .ok (restoreSuccess env dirIds
        (linksTraceOf (restoreMigrateFlag env dirIds) (restoreCs1 env dirIds)))) ∧
    (∀ (env : RestoreEnv) (e : RestoreErr), restore env = .error e →
      (e = .readDirFailed ∧ env.repositoryDir = none) ∨
      (e = .linkDBOpenFailed ∧ env.linkDBOpenOk = false) ∨
      (∃ id, e = .migrationFailed id ∧
        env.migrateLegacySqliteLinksOk id = false)) ∧
    (∀ (env : RestoreEnv) (dirIds : List String) (bad : String),
      env.load bad = none →
      loadAndFilter env dirIds = loadAndFilter env (dirIds.filter (fun dn => dn != bad))) := by
  refine ⟨?_, ?_, ?_⟩
  · intro env dirIds hdir hmigs hdb
    simp only [restore, hdir]
    have hcond : (restoreMigrateFlag env dirIds && !env.linkDBOpenOk) = false := by
      by_cases hflag : restoreMigrateFlag env dirIds = true
      · rw [hflag, hdb hflag]; rfl
      · have : restoreMigrateFlag env dirIds = false := by
          cases hv : restoreMigrateFlag env dirIds
          · rfl
          · exact absurd hv hflag
        rw [this]; rfl
    rw [if_neg (by simp [hcond])]
    rw [linksLoop_eq_ok env _ _ hmigs]
  · intro env e h
    cases hdir : env.repositoryDir with
    | none =>
      simp only [restore, hdir] at h
      cases h
      exact .inl ⟨rfl, rfl⟩
    | some dirIds =>
      simp only [restore, hdir] at h
      by_cases hflag : (restoreMigrateFlag env dirIds && !env.linkDBOpenOk) = true
      · rw [if_pos hflag] at h
        cases h
        refine .inr (.inl ⟨rfl, ?_⟩)
        have := (Bool.and_eq_true_iff.mp hflag).2
        simpa using this
      · rw [if_neg hflag] at h
        cases hloop : linksLoop env (restoreMigrateFlag env dirIds)
            (restoreCs1 env dirIds) with
        | error e2 =>
          rw [hloop] at h
          cases h
          obtain ⟨id, he, _, hbad⟩ := linksLoop_error_inv env _ _ _ hloop
          exact .inr (.inr ⟨id, he, hbad⟩)
        | ok tr => rw [hloop] at h; cases h
  · intro env dirIds bad hbad
    unfold loadAndFilter
    suffices hgen : ∀ (l : List String) (acc : List Container),
        l.foldl (loadStep env) acc =
          (l.filter (fun dn => dn != bad)).foldl (loadStep env) acc from
      hgen dirIds []
    intro l
    induction l with
    | nil => intro acc; rfl
    | cons dn rest ih =>
      intro acc
      by_cases hd : dn = bad
      · subst hd
        rw [List.filter_cons_of_neg (by simp)]
        rw [List.foldl_cons,
          show loadStep env acc dn = acc from by simp [loadStep, hbad]]
        exact ih acc
      · rw [List.filter_cons_of_pos (by simp [hd])]
        rw [List.foldl_cons, List.foldl_cons]
        exact ih _

/-- Witness: a two-candidate repository where the first candidate is
corrupt - restore succeeds and the scan equals the scan of the surviving
candidate alone. -/
theorem C1_witness :
    restore c1wEnv = .ok (restoreSuccess c1wEnv ["bad", "w1"]
      (linksTraceOf (restoreMigrateFlag c1wEnv ["bad", "w1"])
        (restoreCs1 c1wEnv ["bad", "w1"]))) ∧
    loadAndFilter c1wEnv ["bad", "w1"] =
      loadAndFilter c1wEnv (["bad", "w1"].filter (fun dn => dn != "bad")) :=
  ⟨C1_restore_resilience.1 c1wEnv ["bad", "w1"] (by decide) (by decide)
      (by decide),
   C1_restore_resilience.2.2 c1wEnv ["bad", "w1"] "bad" (by decide)⟩

/-! ## C3 -/

/-- C3 counterexample: (i) a mid-removal container (RemovalInProgress=true,
Dead=false, not running) with restart policy always under a daemon with
auto-restart enabled IS selected for automatic restart - restore returns it
in the restart set; (ii) a mid-removal container recorded as running whose
layer reinit fails is never reset: it keeps RemovalInProgress=true and
Dead=false. -/
theorem C3_counterexample :
    (c3cont.removalInProgress = true ∧ c3cont.dead = false ∧
      c3env.autoRestart = true ∧
      (restoreOk? (restore c3env)).map (fun r => r.restartIDs) = some [c3cont.id]) ∧
    (c3contB.removalInProgress = true ∧ c3contB.dead = false ∧
      c3contB ∈ loadAndFilter c3envB ["r2"] ∧
      (restoreContainerStep c3envB c3contB).c.removalInProgress = true ∧
      (restoreContainerStep c3envB c3contB).c.dead = false) := by decide

/-- C3 (amended): a persisted container with RemovalInProgress=true whose
worker completes - it is not recorded Running/Paused, or its layer reinit
and containerd restore succeed - ends its worker with
RemovalInProgress=false and Dead=true, the reset state is written back to
disk, and the worker never changes the Running field; although the
container may be placed in the restart set when its restart policy says so,
a start attempt on a not-running instance is refused because the container
is now Dead, so it is not running after restore; within restore this worker
step is the only mutation of RemovalInProgress or Dead - a container
entering with RemovalInProgress=false leaves its worker unchanged. -/
theorem C3_removal_reset (env : RestoreEnv) (c : Container)
    (hrip : c.removalInProgress = true)
    (hcomp : (c.running || c.paused) = true →
      (env.reinitRWLayerOk c.id && env.containerdRestoreOk c.id) = true) :
    ((restoreContainerStep env c).c.removalInProgress = false ∧
     (restoreContainerStep env c).c.dead = true ∧
     (restoreContainerStep env c).persisted = true ∧
     (restoreContainerStep env c).c.running = c.running) ∧
    (c.running = false →
      containerStart env (restoreContainerStep env c).c =
        .error .notStartableRemoval) ∧
    (∀ dirIds : List String, c ∈ loadAndFilter env dirIds →
      (restoreContainerStep env c).c ∈ restoreFinalContainers env dirIds ∧
      ∀ tr : List RestoreEvent,
        RestoreEvent.toDisk c.id ∈ (restoreSuccess env dirIds tr).trace) ∧
    (∀ (env2 : RestoreEnv) (c2 : Container), c2.removalInProgress = false →
      (restoreContainerStep env2 c2).c = c2) := by
  have hcond : ((c.running || c.paused)
      && !(env.reinitRWLayerOk c.id && env.containerdRestoreOk c.id)) = false := by
    by_cases h1 : (c.running || c.paused) = true
    · rw [h1, hcomp h1]
      rfl
    · have h1f : (c.running || c.paused) = false := by
        cases hv : c.running || c.paused
        · rfl
        · exact absurd hv h1
      rw [h1f]
      rfl
  have hstep : (restoreContainerStep env c).c =
      { c with removalInProgress := false, dead := true } ∧
      (restoreContainerStep env c).persisted = true := by
    unfold restoreContainerStep
    rw [hcond]
    simp [hrip]
  have hrefuse : c.running = false →
      containerStart env (restoreContainerStep env c).c =
        .error .notStartableRemoval := by
    intro hrun
    unfold containerStart
    rw [hstep.1]
    simp [hrun]
  refine ⟨⟨by rw [hstep.1], by rw [hstep.1], hstep.2, by rw [hstep.1]⟩,
    hrefuse, ?_, ?_⟩
  · intro dirIds hmem
    have houts : restoreContainerStep env c ∈ restoreOuts env dirIds :=
      List.mem_map_of_mem _ hmem
    have hcs1 : (restoreContainerStep env c).c ∈ restoreCs1 env dirIds :=
      List.mem_map_of_mem _ houts
    constructor
    · unfold restoreFinalContainers
      refine List.mem_map.mpr ⟨(restoreContainerStep env c).c, hcs1, ?_⟩
      by_cases hsel :
          ((restoreRestartIds env dirIds).contains (restoreContainerStep env c).c.id)
            = true
      · rw [if_pos hsel]
        by_cases hrun : c.running = true
        · have : containerStart env (restoreContainerStep env c).c =
              .ok (restoreContainerStep env c).c := by
            unfold containerStart
            rw [hstep.1]
            simp [hrun]
          rw [this]
        · have hrunf : c.running = false := by
            cases hv : c.running
            · rfl
            · exact absurd hv hrun
          rw [hrefuse hrunf]
      · rw [if_neg hsel]
    · intro tr
      have hreset : RestoreEvent.toDisk c.id ∈ restoreResetTrace env dirIds := by
        unfold restoreResetTrace
        refine List.mem_map.mpr ⟨restoreContainerStep env c, ?_, ?_⟩
        · exact List.mem_filter.mpr ⟨houts, by rw [hstep.2]⟩
        · rw [restoreContainerStep_id]
      simp only [restoreSuccess]
      exact List.mem_append.mpr (.inl (List.mem_append.mpr (.inl
        (List.mem_append.mpr (.inl (List.mem_append.mpr (.inl hreset)))))))
  · intro env2 c2 hr2
    unfold restoreContainerStep
    split
    · rfl
    · simp [hr2]

/-- Witness: the reset at a concrete not-running mid-removal container and
at a concrete recorded-running one whose worker completes. -/
theorem C3_witness :
    (restoreContainerStep c3env c3cont).c.removalInProgress = false ∧
    (restoreContainerStep c3env c3cont).c.dead = true ∧
    (restoreContainerStep c3env c3cont).c ∈ restoreFinalContainers c3env ["r1"] ∧
    (restoreContainerStep c3env c3contC).c.removalInProgress = false ∧
    (restoreContainerStep c3env c3contC).c.dead = true :=
  ⟨(C3_removal_reset c3env c3cont (by decide) (by decide)).1.1,
   (C3_removal_reset c3env c3cont (by decide) (by decide)).1.2.1,
   ((C3_removal_reset c3env c3cont (by decide) (by decide)).2.2.1
      ["r1"] (by decide)).1,
   (C3_removal_reset c3env c3contC (by decide) (by decide)).1.1,
   (C3_removal_reset c3env c3contC (by decide) (by decide)).1.2.1⟩

/-! ## C6 -/

/-- C6 counterexample: the only loaded container carrying the nil-Links
sentinel is recorded running and its layer reinit fails, so its worker
returns before the sentinel detection - restore succeeds without ever
opening the legacy link database, refuting the claim as stated. -/
theorem C6_counterexample :
    nilLinksSentinel c6cont = true ∧ c6cont ∈ loadAndFilter c6env ["m1"] ∧
    (restoreOk? (restore c6env)).map
      (fun r => r.trace.count RestoreEvent.openLinkDB) = some 0 := by decide

/-- C6 (amended): the migration flag is set iff some loaded container whose
worker completes carries the nil-Links sentinel; when it is set the legacy
link database is opened exactly once for the whole restore (never once per
container), each container is migrated immediately before its own
link-graph registration, and a migration failure for any single container
makes restore itself return an error. -/
theorem C6_legacy_migration :
    (∀ (env : RestoreEnv) (dirIds : List String),
      restoreMigrateFlag env dirIds = true ↔
        ∃ c ∈ loadAndFilter env dirIds,
          (restoreContainerStep env c).sawNilLinks = true) ∧
    (∀ (env : RestoreEnv) (c : Container),
      (restoreContainerStep env c).sawNilLinks = true ↔
        (nilLinksSentinel c = true ∧
          ((c.running || c.paused) = true →
            (env.reinitRWLayerOk c.id && env.containerdRestoreOk c.id) = true))) ∧
    (∀ (env : RestoreEnv) (r : RestoreResult), restore env = .ok r →
      r.trace.count RestoreEvent.openLinkDB =
        (if restoreMigrateFlag env (env.repositoryDir.getD []) then 1 else 0)) ∧
    (∀ (env : RestoreEnv) (cs : List Container),
      (∀ c ∈ cs, env.migrateLegacySqliteLinksOk c.id = true) →
      linksLoop env true cs = .ok (linksTraceOf true cs)) ∧
    (∀ (env : RestoreEnv) (dirIds : List String) (c : Container),
      env.repositoryDir = some dirIds →
      restoreMigrateFlag env dirIds = true → env.linkDBOpenOk = true →
      c ∈ restoreCs1 env dirIds → env.migrateLegacySqliteLinksOk c.id = false →
      ∃ id, restore env = .error (.migrationFailed id) ∧
        env.migrateLegacySqliteLinksOk id = false) := by
  refine ⟨?_, ?_, ?_, ?_, ?_⟩
  · intro env dirIds
    unfold restoreMigrateFlag restoreOuts
    rw [List.any_eq_true]
    constructor
    · rintro ⟨o, ho, hsaw⟩
      obtain ⟨c, hc, rfl⟩ := List.mem_map.mp ho
      exact ⟨c, hc, hsaw⟩
    · rintro ⟨c, hc, hsaw⟩
      exact ⟨restoreContainerStep env c, List.mem_map_of_mem _ hc, hsaw⟩
  · intro env c
    by_cases h1 : (c.running || c.paused) = true
    · by_cases h2 : (env.reinitRWLayerOk c.id && env.containerdRestoreOk c.id) = true
      · unfold restoreContainerStep
        rw [h1, h2]
        simp
      · unfold restoreContainerStep
        rw [h1]
        have h2f : (env.reinitRWLayerOk c.id && env.containerdRestoreOk c.id) = false := by
          cases hv : env.reinitRWLayerOk c.id && env.containerdRestoreOk c.id
          · rfl
          · exact absurd hv h2
        rw [h2f]
        simp [h1, h2f]
    · have h1f : (c.running || c.paused) = false := by
        cases hv : c.running || c.paused
        · rfl
        · exact absurd hv h1
      unfold restoreContainerStep
      rw [h1f]
      simp [h1f]
  · intro env r h
    obtain ⟨dirIds, tr, hdir, hloop, rfl⟩ := restore_ok_inv h
    rw [hdir]
    exact count_openLinkDB_restoreSuccess env dirIds tr
      (linksLoop_no_openLinkDB env _ _ tr hloop)
  · intro env cs h
    exact linksLoop_eq_ok env true cs (fun c hc => by simp [h c hc])
  · intro env dirIds c hdir hflag hopen hmem hbad
    obtain ⟨id, hid, hbad2⟩ :=
      linksLoop_error_of_bad env (restoreCs1 env dirIds) c hmem hbad
    refine ⟨id, ?_, hbad2⟩
    simp only [restore, hdir]
    rw [if_neg (by simp [hflag, hopen])]
    rw [← hflag] at hid
    rw [hid]

/-- Witness: the sentinel detection and flag at a concrete restore whose
one loaded container has nil Links and completes its worker. -/
theorem C6_witness :
    (restoreContainerStep c6wEnv c6wCont).sawNilLinks = true ∧
    restoreMigrateFlag c6wEnv ["m2"] = true :=
  ⟨(C6_legacy_migration.2.1 c6wEnv c6wCont).mpr ⟨by decide, by decide⟩,
   (C6_legacy_migration.1 c6wEnv ["m2"]).mpr ⟨c6wCont, by decide, by decide⟩⟩

/-! ## C4 helper lemmas -/

theorem loadStep_waitOutcome (env : RestoreEnv) (oracle : String → String → WaitOutcome) :
    loadStep { env with waitOutcome := oracle } = loadStep env := by
  funext acc dn
  rfl

theorem restoreContainerStep_waitOutcome (env : RestoreEnv)
    (oracle : String → String → WaitOutcome) :
    restoreContainerStep { env with waitOutcome := oracle } = restoreContainerStep env := by
  funext c
  rfl

theorem restoreOuts_waitOutcome (env : RestoreEnv)
    (oracle : String → String → WaitOutcome) (dirIds : List String) :
    restoreOuts { env with waitOutcome := oracle } dirIds = restoreOuts env dirIds := by
  unfold restoreOuts loadAndFilter
  rw [loadStep_waitOutcome, restoreContainerStep_waitOutcome]

theorem restoreMigrateFlag_waitOutcome (env : RestoreEnv)
    (oracle : String → String → WaitOutcome) (dirIds : List String) :
    restoreMigrateFlag { env with waitOutcome := oracle } dirIds =
      restoreMigrateFlag env dirIds := by
  unfold restoreMigrateFlag
  rw [restoreOuts_waitOutcome]

theorem restoreCs1_waitOutcome (env : RestoreEnv)
    (oracle : String → String → WaitOutcome) (dirIds : List String) :
    restoreCs1 { env with waitOutcome := oracle } dirIds = restoreCs1 env dirIds := by
  unfold restoreCs1
  rw [restoreOuts_waitOutcome]

theorem linksLoop_waitOutcome (env : RestoreEnv)
    (oracle : String → String → WaitOutcome) (migrate : Bool) :
    ∀ cs : List Container,
      linksLoop { env with waitOutcome := oracle } migrate cs = linksLoop env migrate cs := by
  intro cs
  induction cs with
  | nil => rfl
  | cons c rest ih =>
    unfold linksLoop
    rw [ih]

/-- Exact characterization of the error results of restore. -/
theorem restore_error_cases (env : RestoreEnv) (e : RestoreErr) :
    restore env = .error e ↔
      (env.repositoryDir = none ∧ e = .readDirFailed) ∨
      (∃ dirIds, env.repositoryDir = some dirIds ∧
        (restoreMigrateFlag env dirIds && !env.linkDBOpenOk) = true ∧
        e = .linkDBOpenFailed) ∨
      (∃ dirIds, env.repositoryDir = some dirIds ∧
        (restoreMigrateFlag env dirIds && !env.linkDBOpenOk) = false ∧
        linksLoop env (restoreMigrateFlag env dirIds) (restoreCs1 env dirIds) =
          .error e) := by
  constructor
  · intro h
    cases hd : env.repositoryDir with
    | none =>
      simp only [restore, hd] at h
      cases h
      exact .inl ⟨rfl, rfl⟩
    | some dirIds =>
      simp only [restore, hd] at h
      by_cases hflag : (restoreMigrateFlag env dirIds && !env.linkDBOpenOk) = true
      · rw [if_pos hflag] at h
        cases h
        exact .inr (.inl ⟨dirIds, rfl, hflag, rfl⟩)
      · rw [if_neg hflag] at h
        cases hloop : linksLoop env (restoreMigrateFlag env dirIds)
            (restoreCs1 env dirIds) with
        | error e2 =>
          rw [hloop] at h
          cases h
          exact .inr (.inr ⟨dirIds, rfl, by simpa using hflag, hloop⟩)
        | ok tr => rw [hloop] at h; cases h
  · intro h
    rcases h with ⟨hnone, rfl⟩ | ⟨dirIds, hd, hflag, rfl⟩ | ⟨dirIds, hd, hflag, hloop⟩
    · simp [restore, hnone]
    · simp only [restore, hd]
      rw [if_pos hflag]
    · simp only [restore, hd]
      rw [if_neg (by simp [hflag])]
      rw [hloop]

/-- Changing the restart-wait outcomes only changes the recorded trace,
never whether restore fails nor which error it fails with. -/
theorem restore_waitOutcome_error (env : RestoreEnv)
    (oracle : String → String → WaitOutcome) (e : RestoreErr) :
    restore { env with waitOutcome := oracle } = .error e ↔ restore env = .error e := by
  rw [restore_error_cases, restore_error_cases]
  have h1 : ({ env with waitOutcome := oracle } : RestoreEnv).repositoryDir =
      env.repositoryDir := rfl
  have h2 : ({ env with waitOutcome := oracle } : RestoreEnv).linkDBOpenOk =
      env.linkDBOpenOk := rfl
  simp only [h1, h2, restoreMigrateFlag_waitOutcome, restoreCs1_waitOutcome,
    linksLoop_waitOutcome]

theorem rstep_timer_monotone (s s2 : RestartSys) (id : String) (w w2 : WorkerState)
    (hstep : RStep s s2) (hw : getWorker s id = some w)
    (hw2 : getWorker s2 id = some w2) (ht : w.timerConsumed = true) :
    w2.timerConsumed = true := by
  cases hstep with
  | childDone id0 ch rest w0 wch hw0 hph hwch hcl =>
    by_cases hii : id = id0
    · subst hii
      rw [hw0] at hw
      cases hw
      rw [getWorker, setWorker, alookup_ainsert_self] at hw2
      cases hw2
      exact ht
    · rw [getWorker, setWorker, alookup_ainsert_ne _ _ _ _ hii] at hw2
      have h12 : some w = some w2 := hw.symm.trans (show getWorker s id = some w2 from hw2)
      cases h12
      exact ht
  | timerFires id0 ch rest w0 hw0 hph ht0 =>
    by_cases hii : id = id0
    · subst hii
      rw [getWorker, setWorker, alookup_ainsert_self] at hw2
      cases hw2
      rfl
    · rw [getWorker, setWorker, alookup_ainsert_ne _ _ _ _ hii] at hw2
      have h12 : some w = some w2 := hw.symm.trans (show getWorker s id = some w2 from hw2)
      cases h12
      exact ht
  | startAndClose id0 w0 hw0 hph =>
    by_cases hii : id = id0
    · subst hii
      rw [hw0] at hw
      cases hw
      rw [getWorker, setWorker, alookup_ainsert_self] at hw2
      cases hw2
      exact ht
    · rw [getWorker, setWorker, alookup_ainsert_ne _ _ _ _ hii] at hw2
      have h12 : some w = some w2 := hw.symm.trans (show getWorker s id = some w2 from hw2)
      cases h12
      exact ht

theorem mutualBlock_preserved {s s2 : RestartSys} (hb : MutualBlock s)
    (hstep : RStep s s2) : MutualBlock s2 := by
  obtain ⟨ha, hbb⟩ := hb
  cases hstep with
  | childDone id0 ch rest w0 wch hw0 hph hwch hcl =>
    by_cases hia : id0 = "a"
    · subst hia
      rw [ha] at hw0
      cases hw0
      cases hph
      rw [hbb] at hwch
      cases hwch
      cases hcl
    · by_cases hib : id0 = "b"
      · subst hib
        rw [hbb] at hw0
        cases hw0
        cases hph
        rw [ha] at hwch
        cases hwch
        cases hcl
      · constructor
        · rw [getWorker, setWorker,
            alookup_ainsert_ne _ _ _ _ (fun hh => hia hh.symm)]
          exact ha
        · rw [getWorker, setWorker,
            alookup_ainsert_ne _ _ _ _ (fun hh => hib hh.symm)]
          exact hbb
  | timerFires id0 ch rest w0 hw0 hph ht0 =>
    by_cases hia : id0 = "a"
    · subst hia
      rw [ha] at hw0
      cases hw0
      cases ht0
    · by_cases hib : id0 = "b"
      · subst hib
        rw [hbb] at hw0
        cases hw0
        cases ht0
      · constructor
        · rw [getWorker, setWorker,
            alookup_ainsert_ne _ _ _ _ (fun hh => hia hh.symm)]
          exact ha
        · rw [getWorker, setWorker,
            alookup_ainsert_ne _ _ _ _ (fun hh => hib hh.symm)]
          exact hbb
  | startAndClose id0 w0 hw0 hph =>
    by_cases hia : id0 = "a"
    · subst hia
      rw [ha] at hw0
      cases hw0
      cases hph
    · by_cases hib : id0 = "b"
      · subst hib
        rw [hbb] at hw0
        cases hw0
        cases hph
      · constructor
        · rw [getWorker, setWorker,
            alookup_ainsert_ne _ _ _ _ (fun hh => hia hh.symm)]
          exact ha
        · rw [getWorker, setWorker,
            alookup_ainsert_ne _ _ _ _ (fun hh => hib hh.symm)]
          exact hbb

theorem mutualBlock_rsteps {s s2 : RestartSys} (hb : MutualBlock s)
    (h : RSteps s s2) : MutualBlock s2 := by
  induction h with
  | refl => exact hb
  | tail _ hstep ih => exact mutualBlock_preserved ih hstep

/-! ## C4 -/

/-- C4 counterexample: under the faithful channel semantics of the restart
phase - one notify channel per worker, one single-shot 5-second timer
channel per worker shared by all of its waits - two mutually linked restart
candidates whose timers were consumed while waiting on slow unrelated
children reach a state from which neither can ever proceed: worker a is
never started, refuting the claims that every wait is individually bounded
by the timeout, that the wait loop always terminates, and that the waiting
container is always started. -/
theorem C4_counterexample :
    RSteps deadlockInit deadlockStuck ∧
    MutualBlock deadlockStuck ∧
    ∀ s2 : RestartSys, RSteps deadlockStuck s2 →
      ¬∃ w : WorkerState, getWorker s2 "a" = some w ∧ w.phase = .done := by
  refine ⟨?_, ⟨rfl, rfl⟩, ?_⟩
  · refine Relation.ReflTransGen.head
      (RStep.timerFires deadlockInit "a" "d" ["b"]
        { phase := .waiting ["d", "b"], timerConsumed := false, chClosed := false }
        (by decide) rfl rfl)
      (Relation.ReflTransGen.single ?_)
    exact RStep.timerFires _ "b" "e" ["a"]
      { phase := .waiting ["e", "a"], timerConsumed := false, chClosed := false }
      (by decide) rfl rfl
  · intro s2 hs2 hdone
    obtain ⟨w, hw, hph⟩ := hdone
    have hb := @mutualBlock_rsteps deadlockStuck s2 ⟨rfl, rfl⟩ hs2
    rw [hb.1] at hw
    cases hw
    cases hph

/-- C4 (amended): the restart phase uses a fixed 5-second timer, created
once per restarting container and shared by all of its child waits; within
a worker, the wait on every restart-scheduled link child (such as the
linked-to parent) precedes the start attempt, and the start attempt is
always the final action once the waits resolve, whatever the wait outcomes;
wait outcomes - including timeouts - are never surfaced as a restore error;
and the timer of a worker can fire at most once: once consumed it stays
consumed, so only the first wait of a worker is guaranteed to be bounded by
the timeout. -/
theorem C4_link_wait_semantics :
    restartWaitTimeoutSeconds = 5 ∧
    (∀ (restartIds : List String) (oracle : String → WaitOutcome) (c : Container)
        (childIds : List String) (p : String), p ∈ childIds →
      restartIds.contains p = true →
      ∃ pre, restartWorkerTrace restartIds oracle c childIds =
          pre ++ [RestoreEvent.startAttempt c.id] ∧
        RestoreEvent.waitChild c.id p (oracle p) ∈ pre) ∧
    (∀ (restartIds : List String) (oracle : String → WaitOutcome) (c : Container)
        (childIds : List String),
      (restartWorkerTrace restartIds oracle c childIds).getLast? =
        some (RestoreEvent.startAttempt c.id)) ∧
    (∀ (env : RestoreEnv) (oracle : String → String → WaitOutcome) (e : RestoreErr),
      restore { env with waitOutcome := oracle } = .error e ↔ restore env = .error e) ∧
    (∀ (s s2 : RestartSys) (id : String) (w w2 : WorkerState), RStep s s2 →
      getWorker s id = some w → getWorker s2 id = some w2 →
      w.timerConsumed = true → w2.timerConsumed = true) := by
  refine ⟨rfl, ?_, ?_, restore_waitOutcome_error, rstep_timer_monotone⟩
  · intro restartIds oracle c childIds p hp hcont
    refine ⟨childIds.filterMap (fun ch =>
      if restartIds.contains ch then
        some (RestoreEvent.waitChild c.id ch (oracle ch)) else none), rfl, ?_⟩
    exact List.mem_filterMap.mpr ⟨p, hp, by rw [if_pos hcont]⟩
  · intro restartIds oracle c childIds
    unfold restartWorkerTrace
    exact List.getLast?_concat _

/-- Witness: the parent wait precedes the start in a concrete worker whose
single wait times out. -/
theorem C4_witness :
    ∃ pre, restartWorkerTrace ["p1"] (fun _ => WaitOutcome.timedOut) c9wParent ["p1"] =
        pre ++ [RestoreEvent.startAttempt c9wParent.id] ∧
      RestoreEvent.waitChild c9wParent.id "p1" WaitOutcome.timedOut ∈ pre :=
  C4_link_wait_semantics.2.1 ["p1"] (fun _ => WaitOutcome.timedOut) c9wParent
    ["p1"] "p1" (by decide) (by decide)

end DockerDaemon
